import Mathlib

/-!
Verification development for the bilibili-mcp-server repository.

The Python client (`bilibili_client.py`) is shallowly embedded: pure string
processing (number parsing, identifier validation, 404-page signatures,
search-result shaping) is translated function by function; every outbound
HTTP request is represented by an oracle value describing the one response the
platform would give to that request, and Python exceptions are represented by
`Except` values that the translated `try/except` structure catches exactly
where the source does.  Third-party HTML scraping internals (regex pulls over
page text that no property here depends on) enter as oracle-supplied pure
functions, while all control flow around them (status checks, 404 signature
checks, emptiness tests, envelope construction) is translated from the source.
-/

set_option autoImplicit false
set_option linter.unusedVariables false

namespace Bilibili

/-! ## Basic string machinery shared by the embedding -/

/-- Python `needle in haystack` on strings, on the character-list level. -/
def containsSub (needle : List Char) : List Char → Bool
  | [] => needle.isEmpty
  | c :: cs => needle.isPrefixOf (c :: cs) || containsSub needle cs

/-- Python `needle in haystack` for `String`s. -/
def containsS (needle hay : String) : Bool :=
  containsSub needle.data hay.data

/-- Digits-to-number accumulation, as `int()` reads a run of ASCII digits. -/
def digitsToNat (cs : List Char) : Nat :=
  cs.foldl (fun acc c => 10 * acc + (c.toNat - '0'.toNat)) 0

/-- Python `str.strip()` (restricted to ASCII whitespace, the only kind the
claims exercise): drop whitespace from both ends. -/
def stripChars (cs : List Char) : List Char :=
  ((cs.dropWhile Char.isWhitespace).reverse.dropWhile Char.isWhitespace).reverse

/-! ## ResponseFormatter (bilibili_client.py lines 35-55)

`success` builds `{'success': True, 'data': data, 'method': method}`;
`error` builds `{'success': False, 'error': msg, **kwargs}` where every call
site in the client passes `data=[]` or `data=None` through `kwargs`.
A dict key that is absent is `none`; `data=None` is modelled by the envelope
type `Envelope (Option α)` carrying `some none`. -/

structure Envelope (α : Type) where
  success : Bool
  data : Option α
  error : Option String
  method : Option String
deriving Repr, DecidableEq

namespace ResponseFormatter

def ok {α : Type} (d : α) (m : String) : Envelope α :=
  { success := true, data := some d, error := none, method := some m }

def err {α : Type} (msg : String) (d : Option α) : Envelope α :=
  { success := false, data := d, error := some msg, method := none }

end ResponseFormatter

/-! ## DataExtractor.parse_number_with_unit (lines 67-82)

The source strips the text, searches for the regex `([\d.]+)([万千百十]?)`,
parses the first group with `float()` (a `ValueError` is caught and turns the
result into 0) and returns `int(number * multiplier)`.  The decimal value
`float(number_str)` is modelled exactly as the rational `n / 10^k`; the values
the claims exercise are exact in both models, and `int(...)` truncates the
non-negative product, i.e. takes `(n * multiplier) / 10^k` in `Nat`. -/

/-- A character matched by the `[\d.]` class (ASCII digits; the claims do not
exercise non-ASCII decimal digits). -/
def isNumChar (c : Char) : Bool :=
  c.isDigit || c = '.'

/-- The unit characters of the `[万千百十]` class. -/
def unitChars : List Char := ['万', '千', '百', '十']

/-- `re.search(r'([\d.]+)([万千百十]?)', text)`: the first maximal run of
`[\d.]` characters, with the single unit character that immediately follows
it, if any.  `none` when the text has no `[\d.]` character. -/
def findRun : List Char → Option (List Char × Option Char)
  | [] => none
  | c :: cs =>
    if isNumChar c then
      let run := (c :: cs).takeWhile isNumChar
      let rest := (c :: cs).dropWhile isNumChar
      let unit : Option Char :=
        match rest with
        | u :: _ => if u ∈ unitChars then some u else none
        | [] => none
      some (run, unit)
    else findRun cs

/-- Python `float()` on a string drawn from `[\d.]+`: at most one dot and at
least one digit, value `n / 10^k` returned as the pair `(n, k)`. -/
def parseDecimal (cs : List Char) : Option (Nat × Nat) :=
  let intPart := cs.takeWhile Char.isDigit
  let rest := cs.dropWhile Char.isDigit
  match rest with
  | [] => if intPart.isEmpty then none else some (digitsToNat intPart, 0)
  | r :: frac =>
    if r = '.' ∧ frac.all Char.isDigit ∧ (intPart ≠ [] ∨ frac ≠ []) then
      some (digitsToNat (intPart ++ frac), frac.length)
    else none

/-- The `multipliers` dict, with `.get(unit, 1)` for a missing/absent unit. -/
def multipliers : Option Char → Nat
  | some u =>
    if u = '万' then 10000
    else if u = '千' then 1000
    else if u = '百' then 100
    else if u = '十' then 10
    else 1
  | none => 1

/-- `DataExtractor.parse_number_with_unit` (lines 67-82). -/
def parse_number_with_unit (text : String) : Int :=
  match findRun (stripChars text.data) with
  | none => 0
  | some (run, unit) =>
    match parseDecimal run with
    | none => 0
    | some (n, k) => Int.ofNat (n * multipliers unit / 10 ^ k)

/-! ## Validator (lines 93-127) -/

/-- A Python value as the validators receive it: `None`, a string, or any
non-string object (the `isinstance` test rejects the latter). -/
inductive PyValue where
  | pyNone
  | pyStr (s : String)
  | pyOther
deriving Repr, DecidableEq

/-- `[A-Za-z0-9]`. -/
def isAlnumAscii (c : Char) : Bool :=
  c.isAlpha || c.isDigit

/-- The compiled semantics of `re.match(r'^BV[A-Za-z0-9]{10}$', s)`:
`re.match` anchors at the start, and `$` matches at the end of the string
*or just before a newline at the end of the string* (Python `re` semantics),
so a trailing `'\n'` after the ten alphanumerics is also accepted. -/
def bvMatch (s : String) : Bool :=
  "BV".data.isPrefixOf s.data &&
    ((s.data.drop 2).length = 10 && (s.data.drop 2).all isAlnumAscii
      || ((s.data.drop 2).length = 11 && ((s.data.drop 2).take 10).all isAlnumAscii
            && (s.data.drop 2).getLastD ' ' = '\n'))

namespace Validator

/-- `Validator.is_valid_bvid` (lines 96-101): falsy (`None`, `""`) or
non-string input gives `False`; otherwise the regex decides. -/
def is_valid_bvid : PyValue → Bool
  | .pyStr s => if s = "" then false else bvMatch s
  | _ => false

/-- `Validator.is_valid_cv_id` (lines 103-108): falsy or non-string input
gives `False`; otherwise `str.isdigit()` (ASCII digits; the identifiers the
client handles are ASCII). -/
def is_valid_cv_id : PyValue → Bool
  | .pyStr s => if s = "" then false else s.data.all Char.isDigit
  | _ => false

end Validator

/-- One position's attempt of `re.search(r'<title>([^<]+)</title>', html)`:
the literal `<title>`, a nonempty run of non-`<` characters, then the literal
`</title>`. -/
def titleAt (cs : List Char) : Option (List Char) :=
  if "<title>".data.isPrefixOf cs then
    let rest := cs.drop 7
    let t := rest.takeWhile (fun c => c ≠ '<')
    if ¬ t.isEmpty ∧ "</title>".data.isPrefixOf (rest.drop t.length) then some t
    else none
  else none

/-- `re.search(r'<title>([^<]+)</title>', html)`: the first position where the
pattern matches (the capture cannot backtrack shorter than the maximal run,
since the literal that follows starts with `<`). -/
def searchTitle : List Char → Option (List Char)
  | [] => none
  | c :: cs =>
    match titleAt (c :: cs) with
    | some t => some t
    | none => searchTitle cs

/-- `Validator.is_404_page` (lines 110-127). -/
def is_404_page (html : String) (pageType : String) : Bool :=
  let fromTitle : Bool :=
    match searchTitle html.data with
    | some t =>
      if pageType = "video" ∧ String.mk t = "视频去哪了呢？_哔哩哔哩_bilibili" then true
      else if pageType = "article" ∧
          (containsSub "文章去哪了呢？".data t || containsSub "页面不存在".data t) then true
      else false
    | none => false
  if fromTitle then true
  else if pageType = "video" ∧ containsS "视频去哪了呢？" html then true
  else if pageType = "article" ∧
      (containsS "文章去哪了呢？" html || containsS "页面不存在" html) then true
  else false

/-! ## Transport: BilibiliClient._make_request (lines 240-273)

One call's outcome as the platform would produce it: a transport exception
from `session.get`/`raise_for_status` (all `requests.exceptions.*` land in the
same handler), HTTP 412, a JSON decoding failure, or a decoded response
`{code, message, ...payload}`.  `_make_request` raises `BilibiliError` (the
`Except.error` message below) exactly as the source does, and returns the
decoded dict — whose `code` is necessarily 0 — otherwise. -/

inductive RequestOutcome (α : Type) where
  | http412
  | reqExn (msg : String)
  | jsonErr (msg : String)
  | resp (code : Int) (message : String) (payload : α)
deriving Repr

def makeRequest {α : Type} : RequestOutcome α → Except String (Int × α)
  | .http412 => .error "请求被拒绝 (412)"
  | .reqExn m => .error ("网络请求失败: " ++ m)
  | .jsonErr m => .error ("JSON解析失败: " ++ m)
  | .resp code msg p =>
    if code = 0 then .ok (code, p)
    else if code = -404 then .error "视频不存在或已被删除"
    else if code = -403 then .error "访问被拒绝，视频可能设为私密"
    else if code = -400 then .error "请求参数错误"
    else .error ("API错误 (" ++ toString code ++ "): " ++ msg)

/-- `BilibiliClient._make_request_async` (lines 165-238).  Its first handler,
`except aiohttp.ClientTimeout`, names a class that is not an exception type,
so matching any raised exception against it raises a `TypeError` that replaces
the intended friendly message; no caller of the async transport ever surfaces
that text, so the message carried by a failure outcome is left to the oracle.
A decoded response with nonzero `code` likewise becomes a raised error. -/
inductive RequestOutcomeA (α : Type) where
  | failure (msg : String)
  | resp (code : Int) (message : String) (payload : α)
deriving Repr

def makeRequestAsync {α : Type} : RequestOutcomeA α → Except String (Int × α)
  | .failure m => .error m
  | .resp code msg p =>
    if code = 0 then .ok (code, p)
    else .error ("API错误 " ++ toString code ++ ": " ++ msg)

/-! ## Search-result processing (C4): _extract_content_data (lines 304-329)
and _process_search_results (lines 331-369)

A raw search entry is a JSON dict; only the keys `_extract_content_data`
reads are modelled, each `Option`al since `.get` supplies a default. -/

structure RawSearchItem where
  bvid : Option String := none
  title : Option String := none
  description : Option String := none
  pic : Option String := none
  play : Option Int := none
  video_review : Option Int := none
  duration : Option String := none
  author : Option String := none
  pubdate : Option Int := none
  id : Option String := none
  reply : Option Int := none
  like : Option Int := none
  category : Option String := none
  url : Option String := none
deriving Repr, DecidableEq

structure VideoItemOut where
  bvid : String
  title : String
  description : String
  pic : String
  play : Int
  video_review : Int
  duration : String
  author : String
  pubdate : Int
deriving Repr, DecidableEq

structure ArticleItemOut where
  id : String
  title : String
  description : String
  pic : String
  reply : Int
  like : Int
  author : String
  category : String
  url : String
deriving Repr, DecidableEq

inductive ExtractedItem where
  | video (v : VideoItemOut)
  | article (a : ArticleItemOut)
deriving Repr, DecidableEq

/-- `BilibiliClient._extract_content_data` (lines 304-329). -/
def extract_content_data (d : RawSearchItem) (content_type : String) : ExtractedItem :=
  if content_type = "video" then
    .video {
      bvid := d.bvid.getD "", title := d.title.getD "",
      description := d.description.getD "", pic := d.pic.getD "",
      play := d.play.getD 0, video_review := d.video_review.getD 0,
      duration := d.duration.getD "", author := d.author.getD "",
      pubdate := d.pubdate.getD 0 }
  else
    .article {
      id := d.id.getD "", title := d.title.getD "",
      description := d.description.getD "", pic := d.pic.getD "",
      reply := d.reply.getD 0, like := d.like.getD 0,
      author := d.author.getD "", category := d.category.getD "",
      url := d.url.getD "" }

/-- The dynamic shape of one element of the selected result list:
not a dict at all; a dict without a `"data"` key (a bare entry); or a dict
with a `"data"` key whose value is itself a dict, a list (whose elements may
or may not be dicts), or something else.  `rt` is the optional
`"result_type"` key of the wrapper. -/
inductive SearchListItem where
  | nonDict
  | bare (e : RawSearchItem)
  | wrappedDict (rt : Option String) (e : RawSearchItem)
  | wrappedList (rt : Option String) (es : List (Option RawSearchItem))
  | wrappedOther (rt : Option String)
deriving Repr

/-- The `"data"` dict of the search response; `_process_search_results` walks
the first key among `"result"`, `"video"`, `"items"` that is present. -/
structure SearchData where
  result : Option (List SearchListItem) := none
  video : Option (List SearchListItem) := none
  items : Option (List SearchListItem) := none

/-- The `for key in ["result", "video", "items"]` selection loop
(lines 336-340); `search_results` stays `[]` when no key is present. -/
def selectSearchResults (sd : SearchData) : List SearchListItem :=
  match sd.result with
  | some l => l
  | none =>
    match sd.video with
    | some l => l
    | none => sd.items.getD []

/-- The inner `for content_item in actual_data` loop (lines 352-359). -/
def processInner (content_type rt : String) (topk : Nat) :
    List (Option RawSearchItem) → List ExtractedItem → List ExtractedItem
  | [], results => results
  | none :: rest, results => processInner content_type rt topk rest results
  | some e :: rest, results =>
    if rt = content_type then
      let results' := results ++ [extract_content_data e content_type]
      if topk ≤ results'.length then results'
      else processInner content_type rt topk rest results'
    else processInner content_type rt topk rest results

/-- The outer `for item in search_results` loop (lines 342-367). -/
def processItems (content_type : String) (topk : Nat) :
    List SearchListItem → List ExtractedItem → List ExtractedItem
  | [], results => results
  | item :: rest, results =>
    if topk ≤ results.length then results
    else
      match item with
      | .nonDict => processItems content_type topk rest results
      | .bare e =>
        processItems content_type topk rest
          (results ++ [extract_content_data e content_type])
      | .wrappedDict rt e =>
        if rt.getD content_type = content_type then
          processItems content_type topk rest
            (results ++ [extract_content_data e content_type])
        else processItems content_type topk rest results
      | .wrappedList rt es =>
        processItems content_type topk rest
          (processInner content_type (rt.getD content_type) topk es results)
      | .wrappedOther _ => processItems content_type topk rest results

/-- `BilibiliClient._process_search_results` (lines 331-369). -/
def process_search_results (sd : SearchData) (topk : Nat) (content_type : String) :
    List ExtractedItem :=
  processItems content_type topk (selectSearchResults sd) []

/-- The dict elements of a heterogeneous list, in order. -/
def deopt {α : Type} : List (Option α) → List α
  | [] => []
  | none :: rest => deopt rest
  | some a :: rest => a :: deopt rest

/-- The entries of the selected list that the loop treats as matching the
requested content type, in source order: bare dict entries always match;
wrapped entries match when `result_type` (defaulted to the requested type)
equals the requested type, contributing their dict or the dict elements of
their list. -/
def matchingEntries (content_type : String) : List SearchListItem → List RawSearchItem
  | [] => []
  | .nonDict :: rest => matchingEntries content_type rest
  | .bare e :: rest => e :: matchingEntries content_type rest
  | .wrappedDict rt e :: rest =>
    (if rt.getD content_type = content_type then [e] else [])
      ++ matchingEntries content_type rest
  | .wrappedList rt es :: rest =>
    (if rt.getD content_type = content_type then deopt es else [])
      ++ matchingEntries content_type rest
  | .wrappedOther _ :: rest => matchingEntries content_type rest

/-! ## Comments (C1, C3, C6, C9)

A raw comment as the reply endpoints deliver it; only the keys the client
reads are modelled, each `Option`al since `.get` supplies a default. -/

structure RawComment where
  uname : Option String := none
  message : Option String := none
  like : Option Int := none
  ctime : Option Int := none
  rcount : Option Int := none
  rpid : Option Int := none
deriving Repr, DecidableEq

/-- The decoded payload of a reply-endpoint response beyond `code`/`message`:
`data.get('data', {}).get('replies', [])`, with both defaults folded in. -/
structure ReplyPayload where
  replies : List RawComment
deriving Repr

/-- A processed reply dict `{user, content, like, time}`. -/
structure ReplyOut where
  user : String
  content : String
  like : Int
  time : Int
deriving Repr, DecidableEq

/-- The per-reply processing shared by the sub-comment fetchers. -/
def processReply (r : RawComment) : ReplyOut :=
  { user := r.uname.getD "未知用户", content := r.message.getD "",
    like := r.like.getD 0, time := r.ctime.getD 0 }

/-- A processed main comment dict `{user, content, like, time, replies}`. -/
structure ProcessedComment where
  user : String
  content : String
  like : Int
  time : Int
  replies : List ReplyOut
deriving Repr, DecidableEq

/-- The `while` loop of `_fetch_main_comments_fast` (lines 1285-1312):
runs while fewer than `topk` comments are accumulated and `page <= 3`;
a raised transport error propagates, a nonzero code or an empty page stops
the loop, a nonempty page is appended whole.  `src page ps` is the response
the platform gives page `page` at page size `ps`. -/
def fetchMainLoopFast (src : Nat → Nat → RequestOutcome ReplyPayload)
    (topk ps : Nat) (page : Nat) (comments : List RawComment) :
    Except String (List RawComment) :=
  if h : topk ≤ comments.length ∨ 3 < page then .ok comments
  else
    match makeRequest (src page ps) with
    | .error e => .error e
    | .ok (code, p) =>
      if code ≠ 0 then .ok comments
      else
        match p.replies with
        | [] => .ok comments
        | r :: rs => fetchMainLoopFast src topk ps (page + 1) (comments ++ r :: rs)
termination_by 4 - page
decreasing_by push_neg at h; omega

/-- `BilibiliClient._fetch_main_comments_fast` (lines 1276-1319):
page size `min topk 50`, at most 3 pages, result truncated to `topk`;
a raised error is caught and yields `[]`. -/
def fetch_main_comments_fast (src : Nat → Nat → RequestOutcome ReplyPayload)
    (topk : Nat) : List RawComment :=
  match fetchMainLoopFast src topk (min topk 50) 1 [] with
  | .error _ => []
  | .ok comments => comments.take topk

/-- The `while` loop of `_fetch_main_comments_async` (lines 1240-1267):
identical shape but with no page bound and fixed page size 50. -/
def fetchMainLoopAsync (src : Nat → Nat → RequestOutcomeA ReplyPayload)
    (topk : Nat) (page : Nat) (comments : List RawComment) :
    Except String (List RawComment) :=
  if h : topk ≤ comments.length then .ok comments
  else
    match makeRequestAsync (src page 50) with
    | .error e => .error e
    | .ok (code, p) =>
      if code ≠ 0 then .ok comments
      else
        match p.replies with
        | [] => .ok comments
        | r :: rs => fetchMainLoopAsync src topk (page + 1) (comments ++ r :: rs)
termination_by topk - comments.length
decreasing_by simp only [List.length_append, List.length_cons]; omega

/-- `BilibiliClient._fetch_main_comments_async` (lines 1233-1274). -/
def fetch_main_comments_async (src : Nat → Nat → RequestOutcomeA ReplyPayload)
    (topk : Nat) : List RawComment :=
  match fetchMainLoopAsync src topk 1 [] with
  | .error _ => []
  | .ok comments => comments.take topk

/-- `BilibiliClient._fetch_sub_comments_fast` (lines 1411-1449): a single
request at page size `min maxReplies 20`; any failure yields `[]`; the
processed replies are truncated to `maxReplies`.  `src aid rpid ps` is the
platform's response for that parent. -/
def fetch_sub_comments_fast (src : Int → Int → Nat → RequestOutcome ReplyPayload)
    (aid rpid : Int) (maxReplies : Nat) : List ReplyOut :=
  match makeRequest (src aid rpid (min maxReplies 20)) with
  | .error _ => []
  | .ok (code, p) =>
    if code ≠ 0 then []
    else (p.replies.map processReply).take maxReplies

/-- The `while` loop of `_fetch_sub_comments_async` (lines 1371-1403):
pages of size 10 until `maxReplies` replies are accumulated or a page is
empty/failed. -/
def fetchSubLoopAsync (src : Nat → Nat → RequestOutcomeA ReplyPayload)
    (maxReplies : Nat) (page : Nat) (replies : List ReplyOut) :
    Except String (List ReplyOut) :=
  if h : maxReplies ≤ replies.length then .ok replies
  else
    match makeRequestAsync (src page 10) with
    | .error e => .error e
    | .ok (code, p) =>
      if code ≠ 0 then .ok replies
      else
        match p.replies with
        | [] => .ok replies
        | r :: rs =>
          fetchSubLoopAsync src maxReplies (page + 1)
            (replies ++ (r :: rs).map processReply)
termination_by maxReplies - replies.length
decreasing_by simp only [List.length_append, List.length_cons, List.length_map]; omega

/-- `BilibiliClient._fetch_sub_comments_async` (lines 1364-1409): the loop's
raised errors are caught into `[]`; the result is truncated to `maxReplies`. -/
def fetch_sub_comments_async (src : Nat → Nat → RequestOutcomeA ReplyPayload)
    (maxReplies : Nat) : List ReplyOut :=
  match fetchSubLoopAsync src maxReplies 1 [] with
  | .error _ => []
  | .ok replies => replies.take maxReplies

/-! ## The view endpoint's decoded payload (shared by video info, aid lookup
and the danmaku cid lookup) -/

structure TagObj where
  tag_name : Option String := none
deriving Repr, DecidableEq

structure ViewOwner where
  name : String := ""
  mid : Int := 0
deriving Repr, DecidableEq

structure ViewStat where
  view : Int := 0
  danmaku : Int := 0
  reply : Int := 0
  favorite : Int := 0
  coin : Int := 0
  share : Int := 0
  like : Int := 0
deriving Repr, DecidableEq

/-- The `data` dict of `x/web-interface/view`.  `pages` carries the per-part
`cid`s that the real endpoint returns; `get_video_info` never reads it
(relevant to C5). -/
structure ViewData where
  bvid : String := ""
  title : String := ""
  desc : String := ""
  pic : String := ""
  pubdate : Int := 0
  duration : Int := 0
  stat : ViewStat := {}
  owner : ViewOwner := {}
  tname : String := ""
  tags : Option (List TagObj) := none
  aid : Option Int := none
  pages : List Int := []
deriving Repr, DecidableEq

/-- The view response beyond `code`/`message`: `none` models a response whose
`"data"` key is absent (so `data["data"]` raises `KeyError('data')`). -/
structure ViewResp where
  data : Option ViewData := none
deriving Repr, DecidableEq

/-- `BilibiliClient._get_aid_from_bvid` (lines 1217-1231): any raised error is
caught into `None`; on a decoded response, `data.get('data', {}).get('aid')`. -/
def get_aid_from_bvid (o : RequestOutcome ViewResp) : Option Int :=
  match makeRequest o with
  | .error _ => none
  | .ok (code, p) => if code = 0 then p.data.bind (·.aid) else none

/-- `BilibiliClient._get_aid_from_bvid_async` (lines 1201-1215). -/
def get_aid_from_bvid_async (o : RequestOutcomeA ViewResp) : Option Int :=
  match makeRequestAsync o with
  | .error _ => none
  | .ok (code, p) => if code = 0 then p.data.bind (·.aid) else none

/-- The responses the platform would give the requests `_get_comments_sync`
can issue. -/
structure SyncCommentsOracle where
  view : RequestOutcome ViewResp
  mainSrc : Nat → Nat → RequestOutcome ReplyPayload
  subSrc : Int → Int → Nat → RequestOutcome ReplyPayload

/-- The responses the platform would give the requests `_get_comments_async`
can issue; `subSrc aid rpid page ps` keys the paginated per-parent fetch. -/
structure AsyncCommentsOracle where
  view : RequestOutcomeA ViewResp
  mainSrc : Nat → Nat → RequestOutcomeA ReplyPayload
  subSrc : Int → Int → Nat → Nat → RequestOutcomeA ReplyPayload

/-- `BilibiliClient._get_comments_sync` (lines 1078-1131).  `if not aid` is
also true for `aid == 0`; the MCP-mode caps are `min topk 100` main comments
and `min reply_count 5` replies per comment; a parent triggers a sub-fetch
only when `rcount > 0` and its `rpid` is truthy. -/
def get_comments_sync (o : SyncCommentsOracle) (bvid : String) (topk : Nat)
    (include_replies : Bool) (reply_count : Nat) :
    Envelope (List ProcessedComment) :=
  match get_aid_from_bvid o.view with
  | none => ResponseFormatter.err ("无法获取视频AID: " ++ bvid) (some [])
  | some aid =>
    if aid = 0 then ResponseFormatter.err ("无法获取视频AID: " ++ bvid) (some [])
    else
      let effective_topk := min topk 100
      let main := fetch_main_comments_fast o.mainSrc effective_topk
      if main.isEmpty then ResponseFormatter.ok [] "api"
      else if include_replies then
        let max_replies := min reply_count 5
        ResponseFormatter.ok
          (main.map fun c =>
            { user := c.uname.getD "未知用户", content := c.message.getD "",
              like := c.like.getD 0, time := c.ctime.getD 0,
              replies :=
                if (0 : Int) < c.rcount.getD 0 then
                  match c.rpid with
                  | some rpid =>
                    if rpid = 0 then []
                    else fetch_sub_comments_fast o.subSrc aid rpid max_replies
                  | none => []
                else [] })
          "api"
      else
        ResponseFormatter.ok
          (main.map fun c =>
            { user := c.uname.getD "未知用户", content := c.message.getD "",
              like := c.like.getD 0, time := c.ctime.getD 0, replies := [] })
          "api"

/-- `BilibiliClient._get_comments_async` (lines 1133-1199).  The reply cap is
`min reply_count 10`; the per-parent fetches are gathered into `reply_map`
keyed by `rpid` (each fetch catches its own errors into `[]`, so the
`return_exceptions` branch is dead) and looked up during assembly. -/
def get_comments_async (o : AsyncCommentsOracle) (bvid : String) (topk : Nat)
    (include_replies : Bool) (reply_count : Nat) :
    Envelope (List ProcessedComment) :=
  match get_aid_from_bvid_async o.view with
  | none => ResponseFormatter.err ("无法获取视频AID: " ++ bvid) (some [])
  | some aid =>
    if aid = 0 then ResponseFormatter.err ("无法获取视频AID: " ++ bvid) (some [])
    else
      let main := fetch_main_comments_async o.mainSrc topk
      if main.isEmpty then ResponseFormatter.ok [] "api"
      else if include_replies then
        let max_replies := min reply_count 10
        let replyMap : List (Int × List ReplyOut) :=
          main.filterMap fun c =>
            match c.rpid with
            | some rpid =>
              if (0 : Int) < c.rcount.getD 0 ∧ rpid ≠ 0 then
                some (rpid, fetch_sub_comments_async (o.subSrc aid rpid) max_replies)
              else none
            | none => none
        ResponseFormatter.ok
          (main.map fun c =>
            { user := c.uname.getD "未知用户", content := c.message.getD "",
              like := c.like.getD 0, time := c.ctime.getD 0,
              replies :=
                match c.rpid with
                | some rpid => (replyMap.lookup rpid).getD []
                | none => [] })
          "api"
      else
        ResponseFormatter.ok
          (main.map fun c =>
            { user := c.uname.getD "未知用户", content := c.message.getD "",
              like := c.like.getD 0, time := c.ctime.getD 0, replies := [] })
          "api"

/-- Python truthiness of the client's `cookies` attribute (constructed from
`Optional[str]`): `None` and `""` are falsy. -/
def cookiesFalsy : Option String → Bool
  | none => true
  | some s => s.isEmpty

/-- `BilibiliClient.get_comments` (lines 1054-1076): the credential check
comes first, then the BV format check, then the execution-mode dispatch
(`inEventLoop` is whether `asyncio.get_running_loop()` finds a running
loop, i.e. the MCP execution mode). -/
def get_comments (cookies : Option String) (inEventLoop : Bool)
    (so : SyncCommentsOracle) (ao : AsyncCommentsOracle) (bvid : String)
    (topk : Nat) (include_replies : Bool) (reply_count : Nat) :
    Envelope (List ProcessedComment) :=
  if cookiesFalsy cookies then
    ResponseFormatter.err "获取评论需要提供用户cookies" (some [])
  else if ¬ Validator.is_valid_bvid (.pyStr bvid) then
    ResponseFormatter.err "无效的BV号格式" (some [])
  else if inEventLoop then get_comments_sync so bvid topk include_replies reply_count
  else get_comments_async ao bvid topk include_replies reply_count

/-! ## Video info (C2, C5): get_video_info (lines 821-865),
_get_video_info_script_method (lines 867-1020), _handle_video_error
(lines 804-819) -/

/-- The dict `get_video_info` builds on the API path (lines 841-859). -/
structure VideoInfoOut where
  bvid : String
  title : String
  desc : String
  pic : String
  pubdate : Int
  duration : Int
  view : Int
  danmaku : Int
  reply : Int
  favorite : Int
  coin : Int
  share : Int
  like : Int
  owner_name : String
  owner_mid : Int
  tname : String
  tags : List String
deriving Repr, DecidableEq

/-- The fields the script method extracts from page text (lines 920-998);
`owner_mid` is a string there because it comes from a regex group. -/
structure VideoScriptFields where
  title : String := ""
  desc : String := ""
  pic : String := ""
  pubdate : Int := 0
  duration : Int := 0
  view : Int := 0
  danmaku : Int := 0
  reply : Int := 0
  favorite : Int := 0
  coin : Int := 0
  share : Int := 0
  like : Int := 0
  owner_name : String := ""
  owner_mid : String := ""
  tname : String := ""
  tags : List String := []
deriving Repr, DecidableEq

structure VideoScriptOut where
  bvid : String
  fields : VideoScriptFields
deriving Repr, DecidableEq

/-- The two shapes `get_video_info` can return in `data`. -/
inductive VideoData where
  | api (v : VideoInfoOut)
  | script (v : VideoScriptOut)
deriving Repr, DecidableEq

/-- `BilibiliClient._handle_video_error` (lines 804-819): the first matching
substring of `str(error)` picks the message (dict iteration order is
insertion order). -/
def handle_video_error (msg bvid : String) : Envelope (Option VideoData) :=
  if containsS "Expecting value: line 1 column 1 (char 0)" msg then
    ResponseFormatter.err ("视频不存在或无法访问: " ++ bvid ++ "。请检查BV号是否正确") (some none)
  else if containsS "404" msg then
    ResponseFormatter.err ("视频不存在: " ++ bvid ++ "。请检查BV号是否正确") (some none)
  else if containsS "Not Found" msg then
    ResponseFormatter.err ("视频不存在: " ++ bvid ++ "。请检查BV号是否正确") (some none)
  else if containsS "403" msg then
    ResponseFormatter.err ("访问被拒绝: " ++ bvid ++ "。视频可能被删除或设为私密") (some none)
  else if containsS "Forbidden" msg then
    ResponseFormatter.err ("访问被拒绝: " ++ bvid ++ "。视频可能被删除或设为私密") (some none)
  else ResponseFormatter.err ("获取视频信息失败: " ++ msg) (some none)

/-- The destructuring of lines 834-859 over the decoded `data` dict. -/
def mkVideoInfo (vd : ViewData) : VideoInfoOut :=
  { bvid := vd.bvid, title := vd.title, desc := vd.desc, pic := vd.pic,
    pubdate := vd.pubdate, duration := vd.duration,
    view := vd.stat.view, danmaku := vd.stat.danmaku, reply := vd.stat.reply,
    favorite := vd.stat.favorite, coin := vd.stat.coin, share := vd.stat.share,
    like := vd.stat.like,
    owner_name := vd.owner.name, owner_mid := vd.owner.mid, tname := vd.tname,
    tags :=
      match vd.tags with
      | some ts =>
        if ts.isEmpty then []
        else ts.filterMap fun t =>
          match t.tag_name with
          | some n => if n = "" then none else some n
          | none => none
      | none => [] }

/-- The API path of `get_video_info` (lines 827-865): validator first, one
view request, destructure; any raised error (including the `KeyError('data')`
whose `str` is `'data'` when the response has no `"data"` dict) lands in
`_handle_video_error`. -/
def get_video_info_api (viewO : RequestOutcome ViewResp) (bvid : String) :
    Envelope (Option VideoData) :=
  if ¬ Validator.is_valid_bvid (.pyStr bvid) then
    ResponseFormatter.err
      ("无效的BV号格式: " ++ bvid ++ "。BV号应该以\"BV\"开头，后跟10位字符") (some none)
  else
    match makeRequest viewO with
    | .error e => handle_video_error e bvid
    | .ok (_, p) =>
      match p.data with
      | none => handle_video_error "\x27data\x27" bvid
      | some vd => ResponseFormatter.ok (some (.api (mkVideoInfo vd))) "api"

/-- One `session.get` of a page: the raised exception's text, or a status and
the page text. -/
inductive FetchedPage where
  | exn (msg : String)
  | page (status : Nat) (html : String)

/-- Environment of `_get_video_info_script_method`: the fetched page, the
text of the `HTTPError` that `raise_for_status` would raise for a non-2xx
status other than 404/403, and the pure regex field extraction of lines
920-998 over the page text (it cannot raise: every pull is a guarded
`re.search`). -/
structure VideoScriptOracle where
  page : FetchedPage
  httpErrText : String
  extract : String → VideoScriptFields

/-- `BilibiliClient._get_video_info_script_method` (lines 867-1020). -/
def get_video_info_script (o : VideoScriptOracle) (bvid : String) :
    Envelope (Option VideoData) :=
  if ¬ Validator.is_valid_bvid (.pyStr bvid) then
    ResponseFormatter.err
      ("无效的BV号格式: " ++ bvid ++ "。BV号应该以\"BV\"开头，后跟10位字符") (some none)
  else
    match o.page with
    | .exn m => ResponseFormatter.err m (some none)
    | .page status html =>
      if status = 404 then
        ResponseFormatter.err ("视频不存在: " ++ bvid ++ "。请检查BV号是否正确") (some none)
      else if status = 403 then
        ResponseFormatter.err ("访问被拒绝: " ++ bvid ++ "。视频可能被删除或设为私密") (some none)
      else if 400 ≤ status then ResponseFormatter.err o.httpErrText (some none)
      else if is_404_page html "video" then
        ResponseFormatter.err ("视频不存在: " ++ bvid ++ "。请检查BV号是否正确") (some none)
      else
        let f := o.extract html
        if f.title = "" ∧ f.owner_name = "" then
          ResponseFormatter.err
            ("无法从页面中提取视频信息: " ++ bvid ++ "。视频可能不存在、被删除或页面结构发生变化")
            (some none)
        else ResponseFormatter.ok (some (.script { bvid := bvid, fields := f })) "script"

/-- `BilibiliClient.get_video_info` (lines 821-865): method dispatch. -/
def get_video_info (viewO : RequestOutcome ViewResp) (so : VideoScriptOracle)
    (bvid method : String) : Envelope (Option VideoData) :=
  if method = "script" then get_video_info_script so bvid
  else get_video_info_api viewO bvid

/-! ## Danmaku (C5): get_danmaku (lines 1022-1052) -/

structure DanmakuOut where
  bvid : String
  cid : String
  danmaku_xml : String
deriving Repr, DecidableEq

/-- Environment of `get_danmaku`: the view response for the video-info lookup
(the source calls `get_video_info(bvid)` with its default `method="api"`),
and for each cid the danmaku request's outcome (`raise_for_status` failures
fold into the raised exception's text). -/
structure DanmakuOracle where
  view : RequestOutcome ViewResp
  fetch : String → Except String String

/-- Lines 1032-1048: the second `if not cid` guard and the danmaku request. -/
def danmakuFetch (o : DanmakuOracle) (bvid c : String) :
    Envelope (Option DanmakuOut) :=
  if c = "" then ResponseFormatter.err "无法获取视频CID" (some none)
  else
    match o.fetch c with
    | .error m => ResponseFormatter.err m (some none)
    | .ok xml =>
      ResponseFormatter.ok (some { bvid := bvid, cid := c, danmaku_xml := xml }) "api"

/-- `BilibiliClient.get_danmaku` (lines 1022-1052).  When `cid` is falsy the
video-info lookup runs first; if it fails an error envelope is returned, and
if it succeeds the hardcoded `"62131"` is substituted unconditionally — the
lookup's result (which never carries a cid field; the real endpoint's
`pages[0]['cid']` is dropped by `get_video_info`) is not consulted, as the
source's own comment on line 1030 records. -/
def get_danmaku (o : DanmakuOracle) (bvid : String) (cid : Option String) :
    Envelope (Option DanmakuOut) :=
  if cid.getD "" = "" then
    let vi := get_video_info_api o.view bvid
    if vi.success = false then
      ResponseFormatter.err ("无法获取视频信息: " ++ vi.error.getD "未知错误") (some none)
    else danmakuFetch o bvid "62131"
  else danmakuFetch o bvid (cid.getD "")

/-! ## Video search (C2, C4): search_videos (lines 275-292),
_search_videos_script_method (lines 371-410) -/

/-- The combined-search response beyond `code`/`message`:
`data.get("data", {})`. -/
structure SearchPayload where
  data : Option SearchData := none

/-- Environment of `search_videos`: the API response, the script path's page
fetch, and `_parse_video_search` (lines 511-556) as a pure scrape of the page
text — kept as `Except` because the enclosing `try` would catch anything it
raised (its per-item `try` already swallows per-item failures). -/
structure VideoSearchOracle where
  api : RequestOutcome SearchPayload
  page : Except String String
  parse : String → Nat → Except String (List VideoItemOut)

/-- The `search_indicators` literals of lines 396-399. -/
def searchIndicators : List String :=
  ["搜索结果", "search-result", "video-item", "bili-video-card",
   "video-card", "search-list", "result-list", "vui_tabs"]

/-- `BilibiliClient._search_videos_script_method` (lines 371-410). -/
def search_videos_script (o : VideoSearchOracle) (keyword : String) (topk : Nat) :
    Envelope (List ExtractedItem) :=
  match o.page with
  | .error m => ResponseFormatter.err m (some [])
  | .ok html =>
    if ¬ searchIndicators.any (fun ind => containsS ind html) then
      ResponseFormatter.err "无法获取搜索结果页面" (some [])
    else
      match o.parse html topk with
      | .error m => ResponseFormatter.err m (some [])
      | .ok results => ResponseFormatter.ok (results.map .video) "script"

/-- `BilibiliClient.search_videos` (lines 275-292). -/
def search_videos (o : VideoSearchOracle) (keyword : String) (topk : Nat)
    (method : String) : Envelope (List ExtractedItem) :=
  if method = "script" then search_videos_script o keyword topk
  else
    match makeRequest o.api with
    | .error m => ResponseFormatter.err m (some [])
    | .ok (_, p) =>
      ResponseFormatter.ok (process_search_results (p.data.getD {}) topk "video") "api"

/-! ## Article search (C2, C8): search_articles (lines 294-302),
_search_articles_script_method (lines 412-441), _async_search_articles
(lines 443-489), _get_mock_article_data (lines 491-508) -/

/-- Environment of the article search: whether Playwright imported, and the
outcome of the whole browser navigation + parse (an exception, or the card
list `_async_parse_article_search` would return, possibly empty). -/
structure ArticleSearchOracle where
  playwrightAvailable : Bool
  automation : Except String (List ArticleItemOut)

/-- One iteration of the mock-data loop body (lines 496-506). -/
def mockArticle (keyword : String) (i : Nat) : ArticleItemOut :=
  { id := "cv" ++ toString (43049500 + i),
    title := "[模拟数据] 关于" ++ keyword ++ "的专栏文章 " ++ toString (i + 1),
    description := "这是关于" ++ keyword ++ "的第" ++ toString (i + 1) ++ "篇专栏文章的描述内容。",
    pic := "https://i0.hdslb.com/bfs/new_dyn/banner/mock_banner_" ++ toString (i + 1) ++ ".png",
    reply := 10 + 2 * (i : Int), like := 50 + 10 * (i : Int),
    author := "[模拟] 作者" ++ toString (i + 1),
    category := "日常",
    url := "https://www.bilibili.com/read/cv" ++ toString (43049500 + i) }

/-- `BilibiliClient._get_mock_article_data` (lines 491-508): at most five
deterministic records built from the keyword alone. -/
def mock_article_data (keyword : String) (topk : Nat) :
    Envelope (List ArticleItemOut) :=
  ResponseFormatter.ok ((List.range (min topk 5)).map (mockArticle keyword)) "script"

/-- `BilibiliClient._async_search_articles` (lines 443-489): a nonempty parse
is returned as a hand-built success dict; an empty parse or any raised error
falls back to mock data. -/
def async_search_articles (o : ArticleSearchOracle) (keyword : String) (topk : Nat) :
    Envelope (List ArticleItemOut) :=
  match o.automation with
  | .error _ => mock_article_data keyword topk
  | .ok [] => mock_article_data keyword topk
  | .ok results =>
    { success := true, data := some results, error := none, method := some "script" }

/-- `BilibiliClient._search_articles_script_method` (lines 412-441): without
Playwright, mock data; with it, the coroutine runs (directly or on a worker
thread — both arms run the same coroutine) and any error from that machinery
also falls back to mock data. -/
def search_articles_script (o : ArticleSearchOracle) (keyword : String) (topk : Nat) :
    Envelope (List ArticleItemOut) :=
  if ¬ o.playwrightAvailable then mock_article_data keyword topk
  else async_search_articles o keyword topk

/-- `BilibiliClient.search_articles` (lines 294-302); its `except` arm is
unreachable because the script method returns an envelope on every path. -/
def search_articles (o : ArticleSearchOracle) (keyword : String) (topk : Nat) :
    Envelope (List ArticleItemOut) :=
  search_articles_script o keyword topk

/-! ## Article detail (C2): get_article (lines 1500-1508),
_get_article_info_script_method (lines 1510-1557) -/

/-- The dict `_parse_article_content` (lines 1559-1654) assembles from page
text; that function is total (it catches its own exceptions and every pull is
a guarded match), so it enters as a pure oracle function. -/
structure ArticleFields where
  title : String := ""
  author : String := ""
  author_avatar : String := ""
  publish_time : String := ""
  content : String := ""
  images : List String := []
  tags : List String := []
  like_count : Int := 0
  comment_count : Int := 0
  share_count : Int := 0
  coin_count : Int := 0
  favorite_count : Int := 0
deriving Repr, DecidableEq

structure ArticleOut where
  cv_id : String
  fields : ArticleFields
  url : String
deriving Repr, DecidableEq

structure ArticleOracle where
  page : FetchedPage
  httpErrText : String
  parse : String → ArticleFields

/-- `BilibiliClient.get_article` = `_get_article_info_script_method`
(lines 1500-1557; the public wrapper only forwards). -/
def get_article (o : ArticleOracle) (cv_id : String) : Envelope (Option ArticleOut) :=
  if ¬ Validator.is_valid_cv_id (.pyStr cv_id) then
    ResponseFormatter.err ("无效的CV号格式: " ++ cv_id ++ "。CV号应该是纯数字") (some none)
  else
    match o.page with
    | .exn m => ResponseFormatter.err m (some none)
    | .page status html =>
      if status = 404 then
        ResponseFormatter.err ("文章不存在: cv" ++ cv_id ++ "。请检查CV号是否正确") (some none)
      else if status = 403 then
        ResponseFormatter.err ("访问被拒绝: cv" ++ cv_id ++ "。文章可能被删除或设为私密") (some none)
      else if 400 ≤ status then ResponseFormatter.err o.httpErrText (some none)
      else if is_404_page html "article" then
        ResponseFormatter.err ("文章不存在: cv" ++ cv_id ++ "。请检查CV号是否正确") (some none)
      else
        let f := o.parse html
        if f.title = "" then
          ResponseFormatter.err
            ("无法从页面中提取文章信息: cv" ++ cv_id ++ "。文章可能不存在、被删除或页面结构发生变化")
            (some none)
        else
          ResponseFormatter.ok
            (some { cv_id := cv_id, fields := f,
                    url := "https://www.bilibili.com/read/cv" ++ cv_id }) "script"

/-! ## Theorems -/

/-! ### C10: totality and exact languages of the Validator predicates -/

/-- The claim's acceptance language for video ids, stated from the spec's
words: exactly the strings "BV" followed by ten alphanumeric characters. -/
def specBV (s : String) : Bool :=
  "BV".data.isPrefixOf s.data
    && ((s.data.drop 2).length = 10 && (s.data.drop 2).all isAlnumAscii)

/-- The extra family the code accepts beyond `specBV`: "BV", ten
alphanumerics, then one trailing newline (the `$`-before-final-newline
behaviour of Python `re`). -/
def specBVNewline (s : String) : Bool :=
  "BV".data.isPrefixOf s.data
    && ((s.data.drop 2).length = 11 && ((s.data.drop 2).take 10).all isAlnumAscii
          && (s.data.drop 2).getLastD ' ' = '\n')

/-- C10 counterexample: `is_valid_bvid` does not accept *exactly* the strings
"BV" + 10 alphanumerics — it also accepts `"BV1234567890\n"` (13 characters,
trailing newline), because `$` in `re.match(r'^BV[A-Za-z0-9]{10}$', ·)`
matches just before a trailing newline. -/
theorem c10_counterexample :
    Validator.is_valid_bvid (.pyStr "BV1234567890\n") = true
      ∧ specBV "BV1234567890\n" = false := by
  decide

/-- C10 (amended): both validators are total and return `False` on `None`,
non-strings and the empty string; `is_valid_bvid` accepts exactly
"BV" + 10 alphanumerics *or* that followed by a single trailing newline;
`is_valid_cv_id` accepts exactly nonempty all-digit strings. -/
theorem c10_amended :
    (∀ s : String, Validator.is_valid_bvid (.pyStr s) = (specBV s || specBVNewline s))
    ∧ (∀ s : String,
        Validator.is_valid_cv_id (.pyStr s) = true ↔ s ≠ "" ∧ ∀ c ∈ s.data, c.isDigit = true)
    ∧ Validator.is_valid_bvid .pyNone = false
    ∧ Validator.is_valid_bvid .pyOther = false
    ∧ Validator.is_valid_bvid (.pyStr "") = false
    ∧ Validator.is_valid_cv_id .pyNone = false
    ∧ Validator.is_valid_cv_id .pyOther = false
    ∧ Validator.is_valid_cv_id (.pyStr "") = false := by
  refine ⟨?_, ?_, rfl, rfl, by decide, rfl, rfl, by decide⟩
  · intro s
    by_cases hs : s = ""
    · subst hs; decide
    · simp only [Validator.is_valid_bvid, if_neg hs]
      unfold bvMatch specBV specBVNewline
      cases hp : "BV".data.isPrefixOf s.data <;> simp [Bool.and_or_distrib_left]
  · intro s
    by_cases hs : s = ""
    · subst hs; simp [Validator.is_valid_cv_id]
    · simp [Validator.is_valid_cv_id, hs, List.all_eq_true]

/-! ### Shared list/char lemmas -/

lemma takeWhile_all_append {α : Type} (p : α → Bool) :
    ∀ (l1 : List α) (b : α) (l2 : List α), (∀ a ∈ l1, p a = true) → p b = false →
      (l1 ++ b :: l2).takeWhile p = l1 ∧ (l1 ++ b :: l2).dropWhile p = b :: l2
  | [], b, l2, h, hb => by simp [List.takeWhile_cons, List.dropWhile_cons, hb]
  | a :: l1, b, l2, h, hb => by
    have ha : p a = true := h a (by simp)
    have ih := takeWhile_all_append p l1 b l2 (fun x hx => h x (by simp [hx])) hb
    simp [List.takeWhile_cons, List.dropWhile_cons, ha, ih.1, ih.2]

lemma takeWhile_all {α : Type} (p : α → Bool) :
    ∀ (l : List α), (∀ a ∈ l, p a = true) →
      l.takeWhile p = l ∧ l.dropWhile p = []
  | [], _ => by simp
  | a :: l, h => by
    have ha : p a = true := h a (by simp)
    have ih := takeWhile_all p l (fun x hx => h x (by simp [hx]))
    simp [List.takeWhile_cons, List.dropWhile_cons, ha, ih.1, ih.2]

lemma dropWhile_all_neg {α : Type} (p : α → Bool) :
    ∀ (l : List α), (∀ a ∈ l, p a = false) → l.dropWhile p = l
  | [], _ => rfl
  | a :: l, h => by simp [List.dropWhile_cons, h a (by simp)]

lemma stripChars_eq_self (cs : List Char) (h : ∀ c ∈ cs, c.isWhitespace = false) :
    stripChars cs = cs := by
  unfold stripChars
  rw [dropWhile_all_neg _ cs h,
    dropWhile_all_neg _ cs.reverse (fun c hc => h c (List.mem_reverse.1 hc)),
    List.reverse_reverse]

lemma not_ws_of_digit {c : Char} (h : c.isDigit = true) : c.isWhitespace = false := by
  cases hw : c.isWhitespace
  · rfl
  · exfalso
    simp [Char.isWhitespace] at hw
    rcases hw with ((rfl | rfl) | rfl) | rfl <;> exact absurd h (by decide)

lemma not_ws_of_numChar {c : Char} (h : isNumChar c = true) : c.isWhitespace = false := by
  simp [isNumChar] at h
  rcases h with h | rfl
  · exact not_ws_of_digit h
  · decide

lemma unit_facts {u : Char} (hu : u ∈ unitChars) :
    isNumChar u = false ∧ u.isWhitespace = false := by
  simp [unitChars] at hu
  rcases hu with rfl | rfl | rfl | rfl <;> exact ⟨by decide, by decide⟩

lemma findRun_eq_none : ∀ (cs : List Char), (∀ c ∈ cs, isNumChar c = false) →
    findRun cs = none
  | [], _ => rfl
  | c :: cs, h => by
    simp [findRun, h c (by simp)]
    exact findRun_eq_none cs (fun x hx => h x (by simp [hx]))

/-- `parseDecimal` on a dotted all-digit numeral. -/
lemma parseDecimal_dotted (ip fp : List Char) (hip : ip ≠ [])
    (hipd : ∀ c ∈ ip, c.isDigit = true) (hfpd : ∀ c ∈ fp, c.isDigit = true) :
    parseDecimal (ip ++ '.' :: fp) = some (digitsToNat (ip ++ fp), fp.length) := by
  have h := takeWhile_all_append Char.isDigit ip '.' fp hipd (by decide)
  unfold parseDecimal
  rw [h.1, h.2]
  exact if_pos ⟨rfl, List.all_eq_true.mpr hfpd, Or.inl hip⟩

/-- `parseDecimal` on a dotless all-digit numeral. -/
lemma parseDecimal_plain (ip : List Char) (hip : ip ≠ [])
    (hipd : ∀ c ∈ ip, c.isDigit = true) :
    parseDecimal ip = some (digitsToNat ip, 0) := by
  have h := takeWhile_all Char.isDigit ip hipd
  unfold parseDecimal
  rw [h.1, h.2]
  simp [hip]

/-- Evaluation of the parser on `run ++ [u]` where `run` is a nonempty
`[\d.]` run and `u` a unit character. -/
lemma pnu_append_unit (run : List Char) (u : Char)
    (hnum : ∀ c ∈ run, isNumChar c = true) (hne : run ≠ []) (hu : u ∈ unitChars) :
    parse_number_with_unit (String.mk (run ++ [u])) =
      match parseDecimal run with
      | none => 0
      | some (n, k) => Int.ofNat (n * multipliers (some u) / 10 ^ k) := by
  obtain ⟨hun, huw⟩ := unit_facts hu
  have hws : ∀ c ∈ run ++ [u], c.isWhitespace = false := by
    intro c hc
    rcases List.mem_append.1 hc with h1 | h2
    · exact not_ws_of_numChar (hnum c h1)
    · simp at h2; subst h2; exact huw
  have htake := takeWhile_all_append isNumChar run u [] hnum hun
  obtain ⟨d, run', rfl⟩ : ∃ d run', run = d :: run' := by
    cases run with
    | nil => exact absurd rfl hne
    | cons d r => exact ⟨d, r, rfl⟩
  have hd : isNumChar d = true := hnum d (by simp)
  simp only [parse_number_with_unit]
  rw [stripChars_eq_self _ hws]
  simp only [List.cons_append, findRun, hd, if_pos]
  simp only [List.append_eq]
  rw [← List.cons_append, htake.1, htake.2]
  simp [hu]

/-- Evaluation of the parser on a bare nonempty `[\d.]` run. -/
lemma pnu_bare (run : List Char)
    (hnum : ∀ c ∈ run, isNumChar c = true) (hne : run ≠ []) :
    parse_number_with_unit (String.mk run) =
      match parseDecimal run with
      | none => 0
      | some (n, k) => Int.ofNat (n * multipliers none / 10 ^ k) := by
  have hws : ∀ c ∈ run, c.isWhitespace = false :=
    fun c hc => not_ws_of_numChar (hnum c hc)
  have htake := takeWhile_all isNumChar run hnum
  obtain ⟨d, run', rfl⟩ : ∃ d run', run = d :: run' := by
    cases run with
    | nil => exact absurd rfl hne
    | cons d r => exact ⟨d, r, rfl⟩
  have hd : isNumChar d = true := hnum d (by simp)
  simp only [parse_number_with_unit]
  rw [stripChars_eq_self _ hws]
  simp only [findRun, hd, if_pos]
  rw [htake.1, htake.2]

/-! ### C7: parse_number_with_unit -/

/-- C7: on any input of the form `<decimal><unit>` — with the decimal written
as nonempty digits, optionally followed by a dot and digits, and the unit
drawn from the `{万, 千, 百, 十}` table — the result is the decimal's exact
value times the unit's multiplier, truncated to an integer (`digitsToNat
(ip ++ fp) * mult / 10 ^ |fp|` is exactly `int(float(number) * multiplier)`
for the nonnegative values involved); with the unit absent the multiplier
is 1; an input with no `[\d.]` character at all yields 0 (the function is
total, so it never raises); and the spec's two examples hold. -/
theorem c7_parse_number_with_unit :
    (∀ (ip fp : List Char) (u : Char), ip ≠ [] →
      (∀ c ∈ ip, c.isDigit = true) → (∀ c ∈ fp, c.isDigit = true) → u ∈ unitChars →
      parse_number_with_unit (String.mk (ip ++ '.' :: fp ++ [u]))
        = Int.ofNat (digitsToNat (ip ++ fp) * multipliers (some u) / 10 ^ fp.length))
    ∧ (∀ (ip fp : List Char), ip ≠ [] →
      (∀ c ∈ ip, c.isDigit = true) → (∀ c ∈ fp, c.isDigit = true) →
      parse_number_with_unit (String.mk (ip ++ '.' :: fp))
        = Int.ofNat (digitsToNat (ip ++ fp) / 10 ^ fp.length))
    ∧ (∀ (ip : List Char) (u : Char), ip ≠ [] →
      (∀ c ∈ ip, c.isDigit = true) → u ∈ unitChars →
      parse_number_with_unit (String.mk (ip ++ [u]))
        = Int.ofNat (digitsToNat ip * multipliers (some u)))
    ∧ (∀ s : String, (∀ c ∈ s.data, isNumChar c = false) → parse_number_with_unit s = 0)
    ∧ parse_number_with_unit "134.5万" = 1345000
    ∧ parse_number_with_unit "" = 0 := by
  have hnumrun : ∀ (ip fp : List Char), (∀ c ∈ ip, c.isDigit = true) →
      (∀ c ∈ fp, c.isDigit = true) → ∀ c ∈ ip ++ '.' :: fp, isNumChar c = true := by
    intro ip fp hipd hfpd c hc
    rcases List.mem_append.1 hc with h1 | h2
    · simp [isNumChar, hipd c h1]
    · rcases List.mem_cons.1 h2 with rfl | h3
      · decide
      · simp [isNumChar, hfpd c h3]
  refine ⟨?_, ?_, ?_, ?_, by decide, by decide⟩
  · intro ip fp u hip hipd hfpd hu
    rw [show ip ++ '.' :: fp ++ [u] = (ip ++ '.' :: fp) ++ [u] by simp]
    rw [pnu_append_unit _ u (hnumrun ip fp hipd hfpd) (by simp [hip]) hu]
    rw [parseDecimal_dotted ip fp hip hipd hfpd]
  · intro ip fp hip hipd hfpd
    rw [pnu_bare _ (hnumrun ip fp hipd hfpd) (by simp [hip])]
    rw [parseDecimal_dotted ip fp hip hipd hfpd]
    simp [multipliers]
  · intro ip u hip hipd hu
    rw [pnu_append_unit ip u (fun c hc => by simp [isNumChar, hipd c hc]) hip hu]
    rw [parseDecimal_plain ip hip hipd]
    simp
  · intro s hs
    have : stripChars s.data = (stripChars s.data) := rfl
    have hsub : ∀ c ∈ stripChars s.data, isNumChar c = false := by
      intro c hc
      apply hs
      unfold stripChars at hc
      rw [List.mem_reverse] at hc
      have h1 := (List.dropWhile_sublist (l := (s.data.dropWhile Char.isWhitespace).reverse) Char.isWhitespace).mem hc
      rw [List.mem_reverse] at h1
      exact (List.dropWhile_sublist Char.isWhitespace).mem h1
    simp only [parse_number_with_unit]
    rw [findRun_eq_none _ hsub]

/-- C7 witness: the first clause at the concrete input `"134.5万"`. -/
theorem c7_witness :
    ((['1', '3', '4'] : List Char) ≠ [] ∧ ('万' ∈ unitChars))
    ∧ parse_number_with_unit (String.mk (['1', '3', '4'] ++ '.' :: ['5'] ++ ['万']))
        = Int.ofNat (digitsToNat (['1', '3', '4'] ++ ['5']) * multipliers (some '万')
            / 10 ^ (['5'] : List Char).length) :=
  ⟨by decide,
    c7_parse_number_with_unit.1 ['1', '3', '4'] ['5'] '万'
      (by decide) (by decide) (by decide) (by decide)⟩

/-! ### C4: search truncation and ordering -/

lemma processInner_eq (content_type rt : String) (topk : Nat) :
    ∀ (es : List (Option RawSearchItem)) (acc : List ExtractedItem),
      acc.length < topk →
      processInner content_type rt topk es acc =
        acc ++ ((if rt = content_type then deopt es else []).map
          (fun e => extract_content_data e content_type)).take (topk - acc.length)
  | [], acc, h => by simp [processInner, deopt]
  | none :: rest, acc, h => by
    rw [processInner, processInner_eq content_type rt topk rest acc h]
    by_cases hrt : rt = content_type <;> simp [hrt, deopt]
  | some e :: rest, acc, h => by
    rw [processInner]
    by_cases hrt : rt = content_type
    · rw [if_pos hrt]
      by_cases hlen : topk ≤ (acc ++ [extract_content_data e content_type]).length
      · rw [if_pos hlen]
        have : topk - acc.length = 1 := by simp at hlen; omega
        simp [hrt, deopt, this]
      · rw [if_neg hlen]
        rw [processInner_eq content_type rt topk rest
          (acc ++ [extract_content_data e content_type]) (by omega)]
        have h1 : topk - acc.length = (topk - (acc ++ [extract_content_data e content_type]).length) + 1 := by
          simp at hlen ⊢; omega
        simp only [hrt, if_pos rfl, deopt, List.map_cons, h1, List.take_succ_cons]
        simp
    · rw [if_neg hrt, processInner_eq content_type rt topk rest acc h]
      simp [hrt]

lemma processItems_eq (content_type : String) (topk : Nat) :
    ∀ (items : List SearchListItem) (acc : List ExtractedItem),
      processItems content_type topk items acc =
        acc ++ ((matchingEntries content_type items).map
          (fun e => extract_content_data e content_type)).take (topk - acc.length)
  | [], acc => by simp [processItems, matchingEntries]
  | item :: rest, acc => by
    rw [processItems.eq_def]
    dsimp only
    by_cases hstop : topk ≤ acc.length
    · rw [if_pos hstop]
      have : topk - acc.length = 0 := by omega
      simp [this]
    · rw [if_neg hstop]
      have hlt : acc.length < topk := by omega
      have hsucc : ∀ (x : ExtractedItem),
          topk - acc.length = (topk - (acc ++ [x]).length) + 1 := by
        intro x; simp; omega
      cases item with
      | nonDict =>
        dsimp only
        rw [processItems_eq content_type topk rest acc]
        simp [matchingEntries]
      | bare e =>
        dsimp only
        rw [processItems_eq content_type topk rest (acc ++ [extract_content_data e content_type])]
        simp only [matchingEntries, List.map_cons, hsucc (extract_content_data e content_type),
          List.take_succ_cons]
        simp
      | wrappedDict rt e =>
        dsimp only
        by_cases hrt : rt.getD content_type = content_type
        · rw [if_pos hrt,
            processItems_eq content_type topk rest (acc ++ [extract_content_data e content_type])]
          simp only [matchingEntries, if_pos hrt, List.singleton_append, List.map_cons,
            hsucc (extract_content_data e content_type), List.take_succ_cons]
          simp
        · rw [if_neg hrt, processItems_eq content_type topk rest acc]
          simp [matchingEntries, hrt]
      | wrappedList rt es =>
        dsimp only
        rw [processItems_eq content_type topk rest
          (processInner content_type (rt.getD content_type) topk es acc)]
        rw [processInner_eq content_type (rt.getD content_type) topk es acc hlt]
        have hL : ∀ (L M : List ExtractedItem),
            (acc ++ L.take (topk - acc.length)) ++
                M.take (topk - (acc ++ L.take (topk - acc.length)).length) =
              acc ++ (L ++ M).take (topk - acc.length) := by
          intro L M
          rw [List.take_append_eq_append_take, List.append_assoc]
          congr 2
          simp [List.length_take]
          omega
        simp only [matchingEntries, List.map_append]
        exact hL _ _
      | wrappedOther rt =>
        dsimp only
        rw [processItems_eq content_type topk rest acc]
        simp [matchingEntries]

/-- C4: for every requested count, content type and search payload — whose
entries may be bare, wrapped `{data, result_type}` dicts, or wrappers whose
`data` is itself a list — the processed result is exactly the first `topk`
extracted matching entries in source order; in particular its length is
`min topk M` where `M` counts the matching entries. -/
theorem c4_search_truncation (sd : SearchData) (topk : Nat) (content_type : String) :
    process_search_results sd topk content_type =
      ((matchingEntries content_type (selectSearchResults sd)).map
        (fun e => extract_content_data e content_type)).take topk
    ∧ (process_search_results sd topk content_type).length =
        min topk (matchingEntries content_type (selectSearchResults sd)).length := by
  have h := processItems_eq content_type topk (selectSearchResults sd) []
  simp only [List.length_nil, Nat.sub_zero, List.nil_append] at h
  refine ⟨h, ?_⟩
  rw [process_search_results, h]
  simp [List.length_take]

/-! ### C3: comment pagination -/

/-- An ideal paginated source over an underlying comment list: page `page` at
page size `ps` is the corresponding slice, code 0 — pages are full until the
list is exhausted, then empty. -/
def pagedResp (all : List RawComment) (ps page : Nat) : RequestOutcome ReplyPayload :=
  .resp 0 "" ⟨(all.drop ((page - 1) * ps)).take ps⟩

/-- The same paginated source for the async transport. -/
def pagedRespA (all : List RawComment) (ps page : Nat) : RequestOutcomeA ReplyPayload :=
  .resp 0 "" ⟨(all.drop ((page - 1) * ps)).take ps⟩

lemma take_stop_eq (all : List RawComment) (T m : Nat) (hT : T ≤ m) :
    (all.take m).take T = all.take T := by
  rw [List.take_take, Nat.min_eq_left hT]

lemma fetchMainLoopAsync_paged (all : List RawComment) (T : Nat) :
    ∀ (n page : Nat) (acc : List RawComment), 1 ≤ page →
      T - acc.length ≤ n → acc = all.take ((page - 1) * 50) →
      (fetchMainLoopAsync (fun p ps => pagedRespA all ps p) T page acc).map
          (fun l => l.take T)
        = .ok (all.take T) := by
  intro n
  induction n with
  | zero =>
    intro page acc hpage hn hacc
    have hstop : T ≤ acc.length := by omega
    rw [fetchMainLoopAsync, dif_pos hstop]
    have hlen : acc.length = min ((page - 1) * 50) all.length := by
      rw [hacc, List.length_take]
    have hT : T ≤ (page - 1) * 50 := by omega
    rw [hacc]
    simp [Except.map, take_stop_eq all T _ hT]
  | succ n ih =>
    intro page acc hpage hn hacc
    obtain ⟨q, rfl⟩ : ∃ q, page = q + 1 := ⟨page - 1, by omega⟩
    simp only [Nat.add_sub_cancel] at hacc
    rw [fetchMainLoopAsync]
    by_cases hstop : T ≤ acc.length
    · rw [dif_pos hstop]
      have hlen : acc.length = min (q * 50) all.length := by
        rw [hacc, List.length_take]
      have hT : T ≤ q * 50 := by omega
      rw [hacc]
      simp [Except.map, take_stop_eq all T _ hT]
    · rw [dif_neg hstop]
      have hmk : makeRequestAsync (pagedRespA all 50 (q + 1))
          = .ok (0, ⟨(all.drop (q * 50)).take 50⟩) := rfl
      rw [hmk]
      simp only [ne_eq]
      rw [if_neg (by simp)]
      cases hs : (all.drop (q * 50)).take 50 with
      | nil =>
        have hdrop : all.length ≤ q * 50 := by
          rcases List.take_eq_nil_iff.1 hs with h | h
          · omega
          · exact List.drop_eq_nil_iff.1 h
        have hall : acc = all := by
          rw [hacc]; exact List.take_of_length_le hdrop
        rw [hall]
        simp [Except.map]
      | cons r rs =>
        have hacc' : acc ++ r :: rs = all.take ((q + 1) * 50) := by
          rw [hacc, ← hs, Nat.succ_mul, List.take_add]
        have hfuel : T - (acc ++ r :: rs).length ≤ n := by
          have hl : (acc ++ r :: rs).length = acc.length + (rs.length + 1) := by simp
          omega
        exact ih (q + 2) (acc ++ r :: rs) (by omega) hfuel hacc'

lemma fetchMainLoopFast_paged (all : List RawComment) (T ps : Nat) (hps : 1 ≤ ps) :
    ∀ (n page : Nat) (acc : List RawComment), 1 ≤ page → page ≤ 4 → 4 - page ≤ n →
      acc = all.take ((page - 1) * ps) →
      (fetchMainLoopFast (fun p psx => pagedResp all psx p) T ps page acc).map
          (fun l => l.take T)
        = .ok (all.take (min T (3 * ps))) := by
  intro n
  induction n with
  | zero =>
    intro page acc h1 h4 hn hacc
    have hp : page = 4 := by omega
    subst hp
    rw [fetchMainLoopFast, dif_pos (Or.inr (by omega))]
    rw [hacc]
    simp only [Except.map]
    rw [show (4 : Nat) - 1 = 3 from rfl, List.take_take]
  | succ n ih =>
    intro page acc h1 h4 hn hacc
    obtain ⟨q, rfl⟩ : ∃ q, page = q + 1 := ⟨page - 1, by omega⟩
    simp only [Nat.add_sub_cancel] at hacc
    by_cases hgp : 3 < q + 1
    · have hq : q = 3 := by omega
      subst hq
      rw [fetchMainLoopFast, dif_pos (Or.inr (by omega))]
      rw [hacc]
      simp only [Except.map]
      rw [List.take_take]
    · by_cases hstop : T ≤ acc.length
      · rw [fetchMainLoopFast, dif_pos (Or.inl hstop)]
        have hlen : acc.length = min (q * ps) all.length := by
          rw [hacc, List.length_take]
        have hTq : T ≤ q * ps := by omega
        have hq3 : q * ps ≤ 3 * ps := Nat.mul_le_mul_right ps (by omega)
        rw [hacc]
        simp only [Except.map]
        rw [List.take_take, Nat.min_eq_left hTq, Nat.min_eq_left (hTq.trans hq3)]
      · rw [fetchMainLoopFast, dif_neg (not_or.mpr ⟨hstop, hgp⟩)]
        have hmk : makeRequest (pagedResp all ps (q + 1))
            = .ok (0, ⟨(all.drop (q * ps)).take ps⟩) := rfl
        rw [hmk]
        simp only [ne_eq]
        rw [if_neg (by simp)]
        cases hs : (all.drop (q * ps)).take ps with
        | nil =>
          have hdrop : all.length ≤ q * ps := by
            rcases List.take_eq_nil_iff.1 hs with h | h
            · omega
            · exact List.drop_eq_nil_iff.1 h
          have hall : acc = all := by
            rw [hacc]; exact List.take_of_length_le hdrop
          have hLT : all.length ≤ T := by
            have hlt : acc.length < T := by omega
            rw [hall] at hlt; omega
          have hq3 : q * ps ≤ 3 * ps := Nat.mul_le_mul_right ps (by omega)
          have hL3 : all.length ≤ min T (3 * ps) := by omega
          rw [hall]
          simp only [Except.map]
          rw [List.take_of_length_le hLT, List.take_of_length_le hL3]
        | cons r rs =>
          have hacc' : acc ++ r :: rs = all.take ((q + 1) * ps) := by
            rw [hacc, ← hs, Nat.succ_mul, List.take_add]
          exact ih (q + 2) (acc ++ r :: rs) (by omega) (by omega) (by omega) hacc'

/-- Closed-form result of the MCP-mode fetch against a paginated source. -/
lemma fetch_fast_paged_eq (all : List RawComment) (topk : Nat) :
    fetch_main_comments_fast (fun p ps => pagedResp all ps p) topk
      = all.take (min topk (3 * min topk 50)) := by
  by_cases h0 : topk = 0
  · subst h0
    rw [fetch_main_comments_fast, fetchMainLoopFast, dif_pos (Or.inl (by simp))]
    simp
  · have hps : 1 ≤ min topk 50 := by omega
    have h := fetchMainLoopFast_paged all topk (min topk 50) hps 3 1 []
      (by omega) (by omega) (by omega) (by simp)
    rw [fetch_main_comments_fast]
    cases hloop : fetchMainLoopFast (fun p psx => pagedResp all psx p) topk
        (min topk 50) 1 [] with
    | error e => rw [hloop] at h; simp [Except.map] at h
    | ok c =>
      rw [hloop] at h
      simp only [Except.map, Except.ok.injEq] at h
      exact h

/-- Closed-form result of the async fetch against a paginated source. -/
lemma fetch_async_paged_eq (all : List RawComment) (topk : Nat) :
    fetch_main_comments_async (fun p ps => pagedRespA all ps p) topk
      = all.take topk := by
  have h := fetchMainLoopAsync_paged all topk topk 1 [] (by omega) (by simp) (by simp)
  rw [fetch_main_comments_async]
  cases hloop : fetchMainLoopAsync (fun p ps => pagedRespA all ps p) topk 1 [] with
  | error e => rw [hloop] at h; simp [Except.map] at h
  | ok c =>
    rw [hloop] at h
    simp only [Except.map, Except.ok.injEq] at h
    exact h

/-- A fetch whose every page request raises returns the empty list. -/
lemma fetch_fast_fail_eq (topk : Nat) :
    fetch_main_comments_fast (fun p ps => RequestOutcome.reqExn "connection reset") topk
      = [] := by
  rw [fetch_main_comments_fast, fetchMainLoopFast]
  by_cases h0 : topk ≤ ([] : List RawComment).length
  · rw [dif_pos (Or.inl h0)]; simp
  · rw [dif_neg (not_or.mpr ⟨h0, by omega⟩)]
    rfl

/-- The async analogue of `fetch_fast_fail_eq`. -/
lemma fetch_async_fail_eq (topk : Nat) :
    fetch_main_comments_async (fun p ps => RequestOutcomeA.failure "connection reset") topk
      = [] := by
  rw [fetch_main_comments_async, fetchMainLoopAsync]
  by_cases h0 : topk ≤ ([] : List RawComment).length
  · rw [dif_pos h0]; simp
  · rw [dif_neg h0]
    rfl

/-- C3: against an ideal paginated source over an underlying comment list
`all` (fixed-size full pages until the list is exhausted, then empty pages),
the MCP-mode fetch returns exactly the first `min topk (3 · pageSize)`
comments (its 3-page bound binds) while the async fetch returns exactly the
first `topk` comments (no page bound); both therefore accumulate in order,
stop at the first empty page or at the requested count, return at most `topk`
comments, and introduce no duplicates; a failing page stops either fetch
immediately (here: with an empty overall result, since the enclosing handler
catches the raised error). -/
theorem c3_comment_pagination (all : List RawComment) (topk : Nat) :
    fetch_main_comments_fast (fun p ps => pagedResp all ps p) topk
      = all.take (min topk (3 * min topk 50))
    ∧ fetch_main_comments_async (fun p ps => pagedRespA all ps p) topk = all.take topk
    ∧ (all.Nodup →
        (fetch_main_comments_fast (fun p ps => pagedResp all ps p) topk).Nodup
        ∧ (fetch_main_comments_async (fun p ps => pagedRespA all ps p) topk).Nodup)
    ∧ (fetch_main_comments_fast (fun p ps => pagedResp all ps p) topk).length ≤ topk
    ∧ (fetch_main_comments_async (fun p ps => pagedRespA all ps p) topk).length ≤ topk
    ∧ fetch_main_comments_fast (fun p ps => RequestOutcome.reqExn "connection reset") topk = []
    ∧ fetch_main_comments_async (fun p ps => RequestOutcomeA.failure "connection reset") topk
        = [] := by
  have hfast := fetch_fast_paged_eq all topk
  have hasync := fetch_async_paged_eq all topk
  refine ⟨hfast, hasync, ?_, ?_, ?_, fetch_fast_fail_eq topk, fetch_async_fail_eq topk⟩
  · intro hnd
    constructor
    · rw [hfast]; exact List.Nodup.sublist (List.take_sublist _ _) hnd
    · rw [hasync]; exact List.Nodup.sublist (List.take_sublist _ _) hnd
  · rw [hfast]
    have := List.length_take_le (min topk (3 * min topk 50)) all
    omega
  · rw [hasync]
    exact List.length_take_le _ _

/-- 160 pairwise-distinct raw comments, used to exercise C3 concretely. -/
def c3Comment (i : Nat) : RawComment := { like := some (i : Int) }

/-- C3 witness: 160 distinct comments, `topk = 160` — both fetch results are
duplicate-free (and by `c3_comment_pagination` the MCP-mode fetch is cut at
150 by its 3-page bound while the async fetch returns all 160). -/
theorem c3_witness :
    ((List.range 160).map c3Comment).Nodup
    ∧ ((fetch_main_comments_fast
          (fun p ps => pagedResp ((List.range 160).map c3Comment) ps p) 160).Nodup
        ∧ (fetch_main_comments_async
            (fun p ps => pagedRespA ((List.range 160).map c3Comment) ps p) 160).Nodup) := by
  have hnd : ((List.range 160).map c3Comment).Nodup := by
    refine List.Nodup.map ?_ (List.nodup_range 160)
    intro a b hab
    simpa [c3Comment] using hab
  exact ⟨hnd, (c3_comment_pagination ((List.range 160).map c3Comment) 160).2.2.1 hnd⟩

/-! ### C6: comments require a credential -/

/-- C6: on a client without a session credential, `get_comments` returns the
fixed precondition-error envelope for every execution mode, every oracle and
every argument list — the result does not depend on the oracles or on the
bvid, so no request is issued and no identifier resolution is attempted —
with `success = false`, a nonempty error message, and empty data. -/
theorem c6_comments_precondition (inEventLoop : Bool) (so : SyncCommentsOracle)
    (ao : AsyncCommentsOracle) (bvid : String) (topk : Nat)
    (include_replies : Bool) (reply_count : Nat) :
    get_comments none inEventLoop so ao bvid topk include_replies reply_count
      = ResponseFormatter.err "获取评论需要提供用户cookies" (some [])
    ∧ (get_comments none inEventLoop so ao bvid topk include_replies reply_count).success
        = false
    ∧ (get_comments none inEventLoop so ao bvid topk include_replies reply_count).error
        = some "获取评论需要提供用户cookies"
    ∧ "获取评论需要提供用户cookies" ≠ ""
    ∧ (get_comments none inEventLoop so ao bvid topk include_replies reply_count).data
        = some [] :=
  ⟨rfl, rfl, rfl, by decide, rfl⟩

/-! ### C9: MCP-mode caps on main comments and replies -/

lemma fetch_main_fast_len (src : Nat → Nat → RequestOutcome ReplyPayload) (topk : Nat) :
    (fetch_main_comments_fast src topk).length ≤ topk := by
  rw [fetch_main_comments_fast]
  cases fetchMainLoopFast src topk (min topk 50) 1 [] with
  | error e => simp
  | ok c => exact List.length_take_le _ _

lemma fetch_sub_fast_len (src : Int → Int → Nat → RequestOutcome ReplyPayload)
    (aid rpid : Int) (maxReplies : Nat) :
    (fetch_sub_comments_fast src aid rpid maxReplies).length ≤ maxReplies := by
  rw [fetch_sub_comments_fast]
  cases makeRequest (src aid rpid (min maxReplies 20)) with
  | error e => simp
  | ok p =>
    obtain ⟨code, payload⟩ := p
    dsimp only
    by_cases h : code = 0
    · rw [if_neg (by simp [h])]
      exact List.length_take_le _ _
    · rw [if_pos h]
      simp

lemma fetch_sub_async_len (src : Nat → Nat → RequestOutcomeA ReplyPayload)
    (maxReplies : Nat) :
    (fetch_sub_comments_async src maxReplies).length ≤ maxReplies := by
  rw [fetch_sub_comments_async]
  cases fetchSubLoopAsync src maxReplies 1 [] with
  | error e => simp
  | ok c => exact List.length_take_le _ _

lemma sync_replies_len (o : SyncCommentsOracle) (aid : Int) (mr : Nat) (c : RawComment) :
    (if (0 : Int) < c.rcount.getD 0 then
        match c.rpid with
        | some rpid =>
          if rpid = 0 then []
          else fetch_sub_comments_fast o.subSrc aid rpid mr
        | none => []
      else ([] : List ReplyOut)).length ≤ mr := by
  by_cases h : (0 : Int) < c.rcount.getD 0
  · rw [if_pos h]
    cases hr : c.rpid with
    | none => simp
    | some rpid =>
      dsimp only
      by_cases h0 : rpid = 0
      · rw [if_pos h0]; simp
      · rw [if_neg h0]; exact fetch_sub_fast_len o.subSrc aid rpid mr
  · rw [if_neg h]; simp

lemma lookup_len_le {B : Nat} :
    ∀ (l : List (Int × List ReplyOut)), (∀ p ∈ l, p.2.length ≤ B) →
      ∀ (k : Int) (v : List ReplyOut), l.lookup k = some v → v.length ≤ B
  | [], _, k, v, h => by simp [List.lookup] at h
  | (a, w) :: l, hall, k, v, h => by
    rw [List.lookup] at h
    cases hk : (k == a) with
    | true =>
      rw [hk] at h
      simp only [Option.some.injEq] at h
      subst h
      exact hall (a, w) (by simp)
    | false =>
      rw [hk] at h
      exact lookup_len_le l (fun p hp => hall p (by simp [hp])) k v h

/-- C9: whatever list the comments envelope carries, the MCP-mode path has at
most `min topk 100` main comments each with at most `min reply_count 5`
replies, while the async path caps each comment's replies at
`min reply_count 10`. -/
theorem c9_comment_caps (so : SyncCommentsOracle) (ao : AsyncCommentsOracle)
    (bvid : String) (topk : Nat) (include_replies : Bool) (reply_count : Nat) :
    (∀ l, (get_comments_sync so bvid topk include_replies reply_count).data = some l →
        l.length ≤ min topk 100 ∧ ∀ c ∈ l, c.replies.length ≤ min reply_count 5)
    ∧ (∀ l, (get_comments_async ao bvid topk include_replies reply_count).data = some l →
        ∀ c ∈ l, c.replies.length ≤ min reply_count 10) := by
  constructor
  · intro l hl
    simp only [get_comments_sync] at hl
    cases haid : get_aid_from_bvid so.view with
    | none =>
      rw [haid] at hl
      simp only [ResponseFormatter.err, Option.some.injEq] at hl
      subst hl
      simp
    | some aid =>
      rw [haid] at hl
      dsimp only at hl
      by_cases h0 : aid = 0
      · rw [if_pos h0] at hl
        simp only [ResponseFormatter.err, Option.some.injEq] at hl
        subst hl
        simp
      · rw [if_neg h0] at hl
        by_cases hm : (fetch_main_comments_fast so.mainSrc (min topk 100)).isEmpty
        · rw [if_pos hm] at hl
          simp only [ResponseFormatter.ok, Option.some.injEq] at hl
          subst hl
          simp
        · rw [if_neg hm] at hl
          cases include_replies with
          | true =>
            rw [if_pos rfl] at hl
            simp only [ResponseFormatter.ok, Option.some.injEq] at hl
            subst hl
            constructor
            · rw [List.length_map]
              exact fetch_main_fast_len so.mainSrc (min topk 100)
            · intro c hc
              obtain ⟨x, hx, rfl⟩ := List.mem_map.1 hc
              exact sync_replies_len so aid (min reply_count 5) x
          | false =>
            rw [if_neg (by simp)] at hl
            simp only [ResponseFormatter.ok, Option.some.injEq] at hl
            subst hl
            constructor
            · rw [List.length_map]
              exact fetch_main_fast_len so.mainSrc (min topk 100)
            · intro c hc
              obtain ⟨x, hx, rfl⟩ := List.mem_map.1 hc
              simp
  · intro l hl
    simp only [get_comments_async] at hl
    cases haid : get_aid_from_bvid_async ao.view with
    | none =>
      rw [haid] at hl
      simp only [ResponseFormatter.err, Option.some.injEq] at hl
      subst hl
      simp
    | some aid =>
      rw [haid] at hl
      dsimp only at hl
      by_cases h0 : aid = 0
      · rw [if_pos h0] at hl
        simp only [ResponseFormatter.err, Option.some.injEq] at hl
        subst hl
        simp
      · rw [if_neg h0] at hl
        by_cases hm : (fetch_main_comments_async ao.mainSrc topk).isEmpty
        · rw [if_pos hm] at hl
          simp only [ResponseFormatter.ok, Option.some.injEq] at hl
          subst hl
          simp
        · rw [if_neg hm] at hl
          cases include_replies with
          | true =>
            rw [if_pos rfl] at hl
            simp only [ResponseFormatter.ok, Option.some.injEq] at hl
            subst hl
            intro c hc
            obtain ⟨x, hx, rfl⟩ := List.mem_map.1 hc
            dsimp only
            have hmap : ∀ p ∈ (fetch_main_comments_async ao.mainSrc topk).filterMap
                (fun c : RawComment =>
                  match c.rpid with
                  | some rpid =>
                    if (0 : Int) < c.rcount.getD 0 ∧ rpid ≠ 0 then
                      some (rpid, fetch_sub_comments_async (ao.subSrc aid rpid)
                        (min reply_count 10))
                    else none
                  | none => none),
                p.2.length ≤ min reply_count 10 := by
              intro p hp
              obtain ⟨c, hc', hfc⟩ := List.mem_filterMap.1 hp
              cases hr : c.rpid with
              | none => rw [hr] at hfc; simp at hfc
              | some rpid =>
                rw [hr] at hfc
                dsimp only at hfc
                by_cases hcond : (0 : Int) < c.rcount.getD 0 ∧ rpid ≠ 0
                · rw [if_pos hcond] at hfc
                  simp only [Option.some.injEq] at hfc
                  subst hfc
                  exact fetch_sub_async_len (ao.subSrc aid rpid) (min reply_count 10)
                · rw [if_neg hcond] at hfc
                  simp at hfc
            cases hr : x.rpid with
            | none => simp
            | some rpid =>
              dsimp only
              cases hlk : ((fetch_main_comments_async ao.mainSrc topk).filterMap
                  (fun c : RawComment =>
                    match c.rpid with
                    | some rpid =>
                      if (0 : Int) < c.rcount.getD 0 ∧ rpid ≠ 0 then
                        some (rpid, fetch_sub_comments_async (ao.subSrc aid rpid)
                          (min reply_count 10))
                      else none
                    | none => none)).lookup rpid with
              | none => simp
              | some v => simpa using lookup_len_le _ hmap rpid v hlk
          | false =>
            rw [if_neg (by simp)] at hl
            simp only [ResponseFormatter.ok, Option.some.injEq] at hl
            subst hl
            intro c hc
            obtain ⟨x, hx, rfl⟩ := List.mem_map.1 hc
            simp

/-- A one-comment platform for the C9 witness (the comment has one reply). -/
def c9Raw : RawComment := { rcount := some 1, rpid := some 9 }

def c9SyncOracle : SyncCommentsOracle :=
  { view := .resp 0 "" { data := some { aid := some 7 } },
    mainSrc := fun p ps => pagedResp [c9Raw] ps p,
    subSrc := fun aid rpid ps => .resp 0 "" ⟨[{ message := some "re" }]⟩ }

def c9AsyncOracle : AsyncCommentsOracle :=
  { view := .resp 0 "" { data := some { aid := some 7 } },
    mainSrc := fun p ps => pagedRespA [c9Raw] ps p,
    subSrc := fun aid rpid page ps => .resp 0 "" ⟨[{ message := some "re" }]⟩ }

/-- C9 witness: a caller asking for 200 comments with 7 replies each gets, on
the MCP-mode path, data within the caps `min 200 100` and `min 7 5`, and on
the async path within `min 7 10`. -/
theorem c9_witness :
    ((get_comments_sync c9SyncOracle "BVb" 200 true 7).data
        = some [{ user := "未知用户", content := "", like := 0, time := 0,
                  replies := [{ user := "未知用户", content := "re", like := 0, time := 0 }] }]
      ∧ ([{ user := "未知用户", content := "", like := 0, time := 0,
            replies := [{ user := "未知用户", content := "re", like := 0, time := 0 }] }]
          : List ProcessedComment).length ≤ min 200 100
      ∧ ∀ c ∈ ([{ user := "未知用户", content := "", like := 0, time := 0,
                  replies := [{ user := "未知用户", content := "re", like := 0, time := 0 }] }]
          : List ProcessedComment), c.replies.length ≤ min 7 5)
    ∧ ((get_comments_async c9AsyncOracle "BVb" 200 false 7).data
        = some [{ user := "未知用户", content := "", like := 0, time := 0, replies := [] }]
      ∧ ∀ c ∈ ([{ user := "未知用户", content := "", like := 0, time := 0, replies := [] }]
          : List ProcessedComment), c.replies.length ≤ min 7 10) := by
  have hmain : fetch_main_comments_fast c9SyncOracle.mainSrc (min 200 100) = [c9Raw] := by
    show fetch_main_comments_fast (fun p ps => pagedResp [c9Raw] ps p) (min 200 100) = _
    rw [fetch_fast_paged_eq]
    rfl
  have hmainA : fetch_main_comments_async c9AsyncOracle.mainSrc 200 = [c9Raw] := by
    show fetch_main_comments_async (fun p ps => pagedRespA [c9Raw] ps p) 200 = _
    rw [fetch_async_paged_eq]
    rfl
  have hdata : (get_comments_sync c9SyncOracle "BVb" 200 true 7).data
      = some [{ user := "未知用户", content := "", like := 0, time := 0,
                replies := [{ user := "未知用户", content := "re", like := 0, time := 0 }] }] := by
    simp only [get_comments_sync, hmain]
    rfl
  have hdataA : (get_comments_async c9AsyncOracle "BVb" 200 false 7).data
      = some [{ user := "未知用户", content := "", like := 0, time := 0, replies := [] }] := by
    simp only [get_comments_async, hmainA]
    rfl
  refine ⟨⟨hdata, ?_, ?_⟩, hdataA, ?_⟩
  · exact ((c9_comment_caps c9SyncOracle c9AsyncOracle "BVb" 200 true 7).1 _ hdata).1
  · exact ((c9_comment_caps c9SyncOracle c9AsyncOracle "BVb" 200 true 7).1 _ hdata).2
  · exact (c9_comment_caps c9SyncOracle c9AsyncOracle "BVb" 200 false 7).2 _ hdataA

/-! ### C5: the danmaku cid placeholder -/

/-- A view payload whose `pages` list *does* carry a real cid (777), as the
live endpoint's response does. -/
def c5ViewData : ViewData :=
  { bvid := "BV1234567890", title := "t", owner := { name := "o", mid := 1 },
    aid := some 5, pages := [777] }

def c5Oracle : DanmakuOracle :=
  { view := .resp 0 "" { data := some c5ViewData },
    fetch := fun cid => .ok ("<xml oid=" ++ cid ++ ">") }

def c5OracleFail : DanmakuOracle :=
  { view := .reqExn "timeout", fetch := fun cid => .ok "x" }

/-- C5 evaluation: with `cid` absent and a *successful* video-info lookup
whose underlying response carries the real sub-resource id 777 in
`pages`, `get_danmaku` still requests the hardcoded placeholder cid
`"62131"` — the lookup result is never consulted for a cid (the claim's
conditional fallback does not exist in the code; the source's own comment
on line 1030 records the slip).  When the lookup fails, an error envelope is
returned, as the claim's last part states. -/
theorem c5_danmaku_placeholder :
    ((get_danmaku c5Oracle "BV1234567890" none).success = true
      ∧ (get_danmaku c5Oracle "BV1234567890" none).data
          = some (some { bvid := "BV1234567890", cid := "62131",
                         danmaku_xml := "<xml oid=62131>" })
      ∧ c5ViewData.pages = [777]
      ∧ "62131" ≠ "777")
    ∧ ((get_danmaku c5OracleFail "BV1234567890" none).success = false
      ∧ (get_danmaku c5OracleFail "BV1234567890" none).error
          = some "无法获取视频信息: 获取视频信息失败: 网络请求失败: timeout"
      ∧ "无法获取视频信息: 获取视频信息失败: 网络请求失败: timeout" ≠ "") := by
  refine ⟨⟨?_, ?_, rfl, by decide⟩, ⟨?_, ?_, by decide⟩⟩ <;> decide

/-! ### C8: degraded article search is marked synthetic -/

/-- C8: whenever browser automation is unavailable, raised, or yielded no
results, the article search returns exactly the deterministic mock-data
success envelope (a function of the keyword and count alone), and every
record in it is explicitly marked as synthetic in both its title
(`"[模拟数据] "` prefix) and its author (`"[模拟] "` prefix); there are
`min topk 5` such records and no unmarked ones. -/
theorem c8_degraded_mode (o : ArticleSearchOracle) (keyword : String) (topk : Nat)
    (h : o.playwrightAvailable = false ∨ o.automation = .ok []
        ∨ ∃ m, o.automation = .error m) :
    search_articles o keyword topk = mock_article_data keyword topk
    ∧ (search_articles o keyword topk).success = true
    ∧ (∀ r ∈ (search_articles o keyword topk).data.getD [],
        (∃ rest, r.title = "[模拟数据] " ++ rest)
        ∧ (∃ rest, r.author = "[模拟] " ++ rest))
    ∧ ((search_articles o keyword topk).data.getD []).length = min topk 5 := by
  have hmock : search_articles o keyword topk = mock_article_data keyword topk := by
    rw [search_articles, search_articles_script]
    by_cases hp : o.playwrightAvailable
    · rw [if_neg (by simp [hp])]
      rcases h with h | h | ⟨m, h⟩
      · rw [hp] at h; exact absurd h (by decide)
      · rw [async_search_articles, h]
      · rw [async_search_articles, h]
    · rw [if_pos (by simpa using hp)]
  have hsplit1 : ∀ z : String,
      ("[模拟数据] 关于" : String) ++ z = "[模拟数据] " ++ ("关于" ++ z) := by
    intro z
    apply String.ext
    simp only [String.data_append]
    rw [← List.append_assoc]
    rfl
  have hsplit2 : ∀ z : String,
      ("[模拟] 作者" : String) ++ z = "[模拟] " ++ ("作者" ++ z) := by
    intro z
    apply String.ext
    simp only [String.data_append]
    rw [← List.append_assoc]
    rfl
  refine ⟨hmock, ?_, ?_, ?_⟩
  · rw [hmock]; rfl
  · rw [hmock]
    intro r hr
    simp only [mock_article_data, ResponseFormatter.ok, Option.getD_some,
      List.mem_map] at hr
    obtain ⟨i, hi, rfl⟩ := hr
    exact ⟨⟨_, hsplit1 _⟩, ⟨_, hsplit2 _⟩⟩

  · rw [hmock]
    simp only [mock_article_data, ResponseFormatter.ok, Option.getD_some,
      List.length_map, List.length_range]

def c8Oracle : ArticleSearchOracle :=
  { playwrightAvailable := false, automation := .ok [] }

/-- C8 witness: with Playwright unavailable the search for "电影" returns
the mock success envelope. -/
theorem c8_witness :
    c8Oracle.playwrightAvailable = false
    ∧ search_articles c8Oracle "电影" 2 = mock_article_data "电影" 2
    ∧ (search_articles c8Oracle "电影" 2).success = true
    ∧ ((search_articles c8Oracle "电影" 2).data.getD []).length = min 2 5 :=
  ⟨rfl, (c8_degraded_mode c8Oracle "电影" 2 (Or.inl rfl)).1,
    (c8_degraded_mode c8Oracle "电影" 2 (Or.inl rfl)).2.1,
    (c8_degraded_mode c8Oracle "电影" 2 (Or.inl rfl)).2.2.2⟩

/-! ### C1/C2: envelope discipline of the six public operations

Every public operation is a total Lean function into `Envelope` — the
translation of the source's `try/except` structure, under which no modelled
exception escapes to the caller. -/

/-- Field discipline of one envelope, with `empty` the operation's error-path
data value (`[]` or `None`): a successful envelope carries no error key;
a failed one carries a nonempty message and exactly the empty data. -/
def EnvelopeOk {α : Type} (empty : α) (e : Envelope α) : Prop :=
  (e.success = true → e.error = none)
  ∧ (e.success = false → (∃ m, e.error = some m ∧ m ≠ "") ∧ e.data = some empty)

/-- The C2-level consequence: error key present (and nonempty) exactly on
failure, absent on success. -/
def WellFormedEnv {α : Type} (e : Envelope α) : Prop :=
  (e.success = true → e.error = none)
  ∧ (e.success = false → ∃ m, e.error = some m ∧ m ≠ "")

lemma EnvelopeOk.wf {α : Type} {empty : α} {e : Envelope α}
    (h : EnvelopeOk empty e) : WellFormedEnv e :=
  ⟨h.1, fun hf => (h.2 hf).1⟩

lemma envOk_err {α : Type} (empty : α) (msg : String) (hm : msg ≠ "") :
    EnvelopeOk empty (ResponseFormatter.err msg (some empty)) :=
  ⟨fun h => by simp [ResponseFormatter.err] at h, fun _ => ⟨⟨msg, rfl, hm⟩, rfl⟩⟩

lemma envOk_ok {α : Type} (empty : α) (d : α) (m : String) :
    EnvelopeOk empty (ResponseFormatter.ok d m) :=
  ⟨fun _ => rfl, fun h => by simp [ResponseFormatter.ok] at h⟩

lemma data_ne_empty (s : String) (h : s.data ≠ []) : s ≠ "" :=
  fun he => h (by rw [he])

/-- Every error `_make_request` raises carries a nonempty message. -/
lemma makeRequest_err_ne {α : Type} (o : RequestOutcome α) :
    ∀ m, makeRequest o = .error m → m ≠ "" := by
  intro m h
  cases o with
  | http412 =>
    simp only [makeRequest, Except.error.injEq] at h
    subst h; decide
  | reqExn s =>
    simp only [makeRequest, Except.error.injEq] at h
    subst h; exact data_ne_empty _ (by simp [String.data_append])
  | jsonErr s =>
    simp only [makeRequest, Except.error.injEq] at h
    subst h; exact data_ne_empty _ (by simp [String.data_append])
  | resp code msg p =>
    simp only [makeRequest] at h
    by_cases h0 : code = 0
    · rw [if_pos h0] at h; exact Except.noConfusion h
    · rw [if_neg h0] at h
      by_cases h1 : code = -404
      · rw [if_pos h1] at h
        simp only [Except.error.injEq] at h
        subst h; decide
      · rw [if_neg h1] at h
        by_cases h2 : code = -403
        · rw [if_pos h2] at h
          simp only [Except.error.injEq] at h
          subst h; decide
        · rw [if_neg h2] at h
          by_cases h3 : code = -400
          · rw [if_pos h3] at h
            simp only [Except.error.injEq] at h
            subst h; decide
          · rw [if_neg h3] at h
            simp only [Except.error.injEq] at h
            subst h; exact data_ne_empty _ (by simp [String.data_append])

/-- `_handle_video_error` always produces a well-formed failure envelope. -/
lemma handle_video_error_envOk (msg bvid : String) :
    EnvelopeOk (none : Option VideoData) (handle_video_error msg bvid) := by
  rw [handle_video_error]
  split
  · exact envOk_err _ _ (data_ne_empty _ (by simp [String.data_append]))
  split
  · exact envOk_err _ _ (data_ne_empty _ (by simp [String.data_append]))
  split
  · exact envOk_err _ _ (data_ne_empty _ (by simp [String.data_append]))
  split
  · exact envOk_err _ _ (data_ne_empty _ (by simp [String.data_append]))
  split
  · exact envOk_err _ _ (data_ne_empty _ (by simp [String.data_append]))
  · exact envOk_err _ _ (data_ne_empty _ (by simp [String.data_append]))

/-- `search_videos` returns a well-formed envelope on every path. -/
lemma search_videos_envOk (o : VideoSearchOracle) (keyword : String) (topk : Nat)
    (method : String)
    (hpage : ∀ m, o.page = .error m → m ≠ "")
    (hparse : ∀ html k m, o.parse html k = .error m → m ≠ "") :
    EnvelopeOk [] (search_videos o keyword topk method) := by
  rw [search_videos]
  by_cases hm : method = "script"
  · rw [if_pos hm, search_videos_script]
    cases hp : o.page with
    | error m => exact envOk_err _ _ (hpage m hp)
    | ok html =>
      dsimp only
      by_cases hind : searchIndicators.any (fun ind => containsS ind html)
      · rw [if_neg (by simpa using hind)]
        cases hps : o.parse html topk with
        | error m => exact envOk_err _ _ (hparse html topk m hps)
        | ok results => exact envOk_ok _ _ _
      · rw [if_pos (by simpa using hind)]
        exact envOk_err _ _ (by decide)
  · rw [if_neg hm]
    cases hr : makeRequest o.api with
    | error m => exact envOk_err _ _ (makeRequest_err_ne o.api m hr)
    | ok p => exact envOk_ok _ _ _

/-- `search_articles` returns a well-formed envelope on every path (in fact
always a success envelope). -/
lemma search_articles_envOk (o : ArticleSearchOracle) (keyword : String) (topk : Nat) :
    EnvelopeOk [] (search_articles o keyword topk) := by
  rw [search_articles, search_articles_script]
  have hmock : EnvelopeOk ([] : List ArticleItemOut) (mock_article_data keyword topk) := by
    rw [mock_article_data]
    exact envOk_ok _ _ _
  by_cases hp : o.playwrightAvailable
  · rw [if_neg (by simpa using hp), async_search_articles]
    cases o.automation with
    | error m => exact hmock
    | ok results =>
      cases results with
      | nil => exact hmock
      | cons r rs => exact ⟨fun _ => rfl, fun h => by simp at h⟩
  · rw [if_pos (by simpa using hp)]
    exact hmock

/-- `get_video_info` (both methods) returns a well-formed envelope. -/
lemma get_video_info_envOk (viewO : RequestOutcome ViewResp) (so : VideoScriptOracle)
    (bvid method : String)
    (hexn : ∀ m, so.page = .exn m → m ≠ "")
    (hhttp : so.httpErrText ≠ "") :
    EnvelopeOk (none : Option VideoData) (get_video_info viewO so bvid method) := by
  rw [get_video_info]
  by_cases hm : method = "script"
  · rw [if_pos hm, get_video_info_script]
    by_cases hv : Validator.is_valid_bvid (.pyStr bvid)
    · rw [if_neg (by simpa using hv)]
      cases hp : so.page with
      | exn m => exact envOk_err _ _ (hexn m hp)
      | page status html =>
        dsimp only
        by_cases h404 : status = 404
        · rw [if_pos h404]; exact envOk_err _ _ (data_ne_empty _ (by simp [String.data_append]))
        rw [if_neg h404]
        by_cases h403 : status = 403
        · rw [if_pos h403]; exact envOk_err _ _ (data_ne_empty _ (by simp [String.data_append]))
        rw [if_neg h403]
        by_cases hge : 400 ≤ status
        · rw [if_pos hge]; exact envOk_err _ _ hhttp
        rw [if_neg hge]
        by_cases hsig : is_404_page html "video"
        · rw [if_pos hsig]; exact envOk_err _ _ (data_ne_empty _ (by simp [String.data_append]))
        rw [if_neg hsig]
        by_cases hempty : (so.extract html).title = "" ∧ (so.extract html).owner_name = ""
        · rw [if_pos hempty]; exact envOk_err _ _ (data_ne_empty _ (by simp [String.data_append]))
        · rw [if_neg hempty]; exact envOk_ok _ _ _
    · rw [if_pos (by simpa using hv)]
      exact envOk_err _ _ (data_ne_empty _ (by simp [String.data_append]))
  · rw [if_neg hm, get_video_info_api]
    by_cases hv : Validator.is_valid_bvid (.pyStr bvid)
    · rw [if_neg (by simpa using hv)]
      cases hr : makeRequest viewO with
      | error m => exact handle_video_error_envOk m bvid
      | ok p =>
        obtain ⟨code, payload⟩ := p
        dsimp only
        cases payload.data with
        | none => exact handle_video_error_envOk _ bvid
        | some vd => exact envOk_ok _ _ _
    · rw [if_pos (by simpa using hv)]
      exact envOk_err _ _ (data_ne_empty _ (by simp [String.data_append]))

/-- `get_danmaku` returns a well-formed envelope. -/
lemma get_danmaku_envOk (o : DanmakuOracle) (bvid : String) (cid : Option String)
    (hfetch : ∀ c m, o.fetch c = .error m → m ≠ "") :
    EnvelopeOk (none : Option DanmakuOut) (get_danmaku o bvid cid) := by
  have hdf : ∀ c, EnvelopeOk (none : Option DanmakuOut) (danmakuFetch o bvid c) := by
    intro c
    rw [danmakuFetch]
    by_cases hc : c = ""
    · rw [if_pos hc]; exact envOk_err _ _ (by decide)
    · rw [if_neg hc]
      cases hr : o.fetch c with
      | error m => exact envOk_err _ _ (hfetch c m hr)
      | ok xml =>
        dsimp only
        exact envOk_ok _ _ _
  rw [get_danmaku]
  by_cases hcid : cid.getD "" = ""
  · rw [if_pos hcid]
    by_cases hs : (get_video_info_api o.view bvid).success = false
    · rw [if_pos hs]; exact envOk_err _ _ (data_ne_empty _ (by simp [String.data_append]))
    · rw [if_neg hs]; exact hdf _
  · rw [if_neg hcid]
    exact hdf _

/-- `_get_comments_sync` returns a well-formed envelope (its error messages
are built from nonempty prefixes; its helpers catch their own errors). -/
lemma get_comments_sync_envOk (o : SyncCommentsOracle) (bvid : String) (topk : Nat)
    (ir : Bool) (rc : Nat) :
    EnvelopeOk [] (get_comments_sync o bvid topk ir rc) := by
  simp only [get_comments_sync]
  cases haid : get_aid_from_bvid o.view with
  | none =>
    dsimp only
    exact envOk_err _ _ (data_ne_empty _ (by simp [String.data_append]))
  | some aid =>
    dsimp only
    by_cases h0 : aid = 0
    · rw [if_pos h0]
      exact envOk_err _ _ (data_ne_empty _ (by simp [String.data_append]))
    · rw [if_neg h0]
      by_cases hm : (fetch_main_comments_fast o.mainSrc (min topk 100)).isEmpty
      · rw [if_pos hm]; exact envOk_ok _ _ _
      · rw [if_neg hm]
        cases ir with
        | true => rw [if_pos rfl]; exact envOk_ok _ _ _
        | false => rw [if_neg (by simp)]; exact envOk_ok _ _ _

/-- `_get_comments_async` returns a well-formed envelope. -/
lemma get_comments_async_envOk (o : AsyncCommentsOracle) (bvid : String) (topk : Nat)
    (ir : Bool) (rc : Nat) :
    EnvelopeOk [] (get_comments_async o bvid topk ir rc) := by
  simp only [get_comments_async]
  cases haid : get_aid_from_bvid_async o.view with
  | none =>
    dsimp only
    exact envOk_err _ _ (data_ne_empty _ (by simp [String.data_append]))
  | some aid =>
    dsimp only
    by_cases h0 : aid = 0
    · rw [if_pos h0]
      exact envOk_err _ _ (data_ne_empty _ (by simp [String.data_append]))
    · rw [if_neg h0]
      by_cases hm : (fetch_main_comments_async o.mainSrc topk).isEmpty
      · rw [if_pos hm]; exact envOk_ok _ _ _
      · rw [if_neg hm]
        cases ir with
        | true => rw [if_pos rfl]; exact envOk_ok _ _ _
        | false => rw [if_neg (by simp)]; exact envOk_ok _ _ _

/-- `get_comments` returns a well-formed envelope on every path. -/
lemma get_comments_envOk (cookies : Option String) (mode : Bool)
    (so : SyncCommentsOracle) (ao : AsyncCommentsOracle) (bvid : String)
    (topk : Nat) (ir : Bool) (rc : Nat) :
    EnvelopeOk [] (get_comments cookies mode so ao bvid topk ir rc) := by
  rw [get_comments]
  by_cases hck : cookiesFalsy cookies
  · rw [if_pos (by simpa using hck)]
    exact envOk_err _ _ (by decide)
  · rw [if_neg (by simpa using hck)]
    by_cases hb : Validator.is_valid_bvid (.pyStr bvid)
    · rw [if_neg (by simpa using hb)]
      cases mode with
      | true =>
        rw [if_pos rfl]
        exact get_comments_sync_envOk so bvid topk ir rc
      | false =>
        rw [if_neg (by simp)]
        exact get_comments_async_envOk ao bvid topk ir rc
    · rw [if_pos (by simpa using hb)]
      exact envOk_err _ _ (by decide)

/-- `get_article` returns a well-formed envelope on every path. -/
lemma get_article_envOk (o : ArticleOracle) (cv_id : String)
    (hexn : ∀ m, o.page = .exn m → m ≠ "")
    (hhttp : o.httpErrText ≠ "") :
    EnvelopeOk (none : Option ArticleOut) (get_article o cv_id) := by
  rw [get_article]
  by_cases hv : Validator.is_valid_cv_id (.pyStr cv_id)
  · rw [if_neg (by simpa using hv)]
    cases hp : o.page with
    | exn m => exact envOk_err _ _ (hexn m hp)
    | page status html =>
      dsimp only
      by_cases h404 : status = 404
      · rw [if_pos h404]
        exact envOk_err _ _ (data_ne_empty _ (by simp [String.data_append]))
      rw [if_neg h404]
      by_cases h403 : status = 403
      · rw [if_pos h403]
        exact envOk_err _ _ (data_ne_empty _ (by simp [String.data_append]))
      rw [if_neg h403]
      by_cases hge : 400 ≤ status
      · rw [if_pos hge]; exact envOk_err _ _ hhttp
      rw [if_neg hge]
      by_cases hsig : is_404_page html "article"
      · rw [if_pos hsig]
        exact envOk_err _ _ (data_ne_empty _ (by simp [String.data_append]))
      rw [if_neg hsig]
      by_cases hempty : (o.parse html).title = ""
      · rw [if_pos hempty]
        exact envOk_err _ _ (data_ne_empty _ (by simp [String.data_append]))
      · rw [if_neg hempty]; exact envOk_ok _ _ _
  · rw [if_pos (by simpa using hv)]
    exact envOk_err _ _ (data_ne_empty _ (by simp [String.data_append]))

/-- C1 (amended): for every operation, oracle and input, the returned
envelope satisfies: when `success` is false, the data field is present and
empty/null and the error message is nonempty; when `success` is true, the
error key is absent.  Hence at most one of (data populated, error populated)
holds and `success` matches error-presence — but not "exactly one": a
successful call can carry empty data (see the counterexample).  The
hypotheses say the raw exception texts injected by the platform libraries
(passed through as `str(e)`) are nonempty. -/
theorem c1_envelope_invariant
    (cookies : Option String) (mode : Bool) (so : SyncCommentsOracle)
    (ao : AsyncCommentsOracle) (vo : VideoSearchOracle) (aso : ArticleSearchOracle)
    (viewO : RequestOutcome ViewResp) (vso : VideoScriptOracle) (dno : DanmakuOracle)
    (aro : ArticleOracle) (bvid cv keyword method : String) (topk rc : Nat)
    (ir : Bool) (cid : Option String)
    (hpage : ∀ m, vo.page = .error m → m ≠ "")
    (hparse : ∀ html k m, vo.parse html k = .error m → m ≠ "")
    (hvexn : ∀ m, vso.page = .exn m → m ≠ "")
    (hvhttp : vso.httpErrText ≠ "")
    (hdf : ∀ c m, dno.fetch c = .error m → m ≠ "")
    (haexn : ∀ m, aro.page = .exn m → m ≠ "")
    (hahttp : aro.httpErrText ≠ "") :
    EnvelopeOk [] (get_comments cookies mode so ao bvid topk ir rc)
    ∧ EnvelopeOk [] (search_videos vo keyword topk method)
    ∧ EnvelopeOk [] (search_articles aso keyword topk)
    ∧ EnvelopeOk (none : Option VideoData) (get_video_info viewO vso bvid method)
    ∧ EnvelopeOk (none : Option DanmakuOut) (get_danmaku dno bvid cid)
    ∧ EnvelopeOk (none : Option ArticleOut) (get_article aro cv) :=
  ⟨get_comments_envOk cookies mode so ao bvid topk ir rc,
   search_videos_envOk vo keyword topk method hpage hparse,
   search_articles_envOk aso keyword topk,
   get_video_info_envOk viewO vso bvid method hvexn hvhttp,
   get_danmaku_envOk dno bvid cid hdf,
   get_article_envOk aro cv haexn hahttp⟩

/-- The data field carries a nonempty list. -/
def dataPopulatedC (e : Envelope (List ProcessedComment)) : Prop :=
  ∃ l, e.data = some l ∧ l ≠ []

/-- The error field carries a nonempty message. -/
def errorPopulatedC (e : Envelope (List ProcessedComment)) : Prop :=
  ∃ m, e.error = some m ∧ m ≠ ""

/-- A comments platform whose video exists but whose reply endpoint raises:
the comment fetch then yields no comments at all. -/
def c1Oracle : SyncCommentsOracle :=
  { view := .resp 0 "" { data := some { aid := some 7 } },
    mainSrc := fun p ps => RequestOutcome.reqExn "connection reset",
    subSrc := fun aid rpid ps => .resp 0 "" ⟨[]⟩ }

def c1AsyncDummy : AsyncCommentsOracle :=
  { view := .failure "x", mainSrc := fun p ps => .failure "x",
    subSrc := fun a r pg ps => .failure "x" }

/-- C1 counterexample: a retrieval call (comments of a video with no
retrievable comments) returns `success = true` with `data = []` and no error
— *neither* data nor error is populated, so "exactly one of (data populated,
error populated)" fails on this call. -/
theorem c1_counterexample :
    get_comments (some "SESSDATA=x") true c1Oracle c1AsyncDummy "BV1234567890" 20 false 5
      = { success := true, data := some [], error := none, method := some "api" }
    ∧ ¬((dataPopulatedC (get_comments (some "SESSDATA=x") true c1Oracle c1AsyncDummy
            "BV1234567890" 20 false 5)
          ∧ ¬ errorPopulatedC (get_comments (some "SESSDATA=x") true c1Oracle c1AsyncDummy
            "BV1234567890" 20 false 5))
        ∨ (¬ dataPopulatedC (get_comments (some "SESSDATA=x") true c1Oracle c1AsyncDummy
            "BV1234567890" 20 false 5)
          ∧ errorPopulatedC (get_comments (some "SESSDATA=x") true c1Oracle c1AsyncDummy
            "BV1234567890" 20 false 5))) := by
  have hmain : fetch_main_comments_fast c1Oracle.mainSrc (min 20 100) = [] :=
    fetch_fast_fail_eq (min 20 100)
  have heq : get_comments (some "SESSDATA=x") true c1Oracle c1AsyncDummy
      "BV1234567890" 20 false 5
      = { success := true, data := some [], error := none, method := some "api" } := by
    show get_comments_sync c1Oracle "BV1234567890" 20 false 5 = _
    simp only [get_comments_sync, hmain]
    rfl
  refine ⟨heq, ?_⟩
  rintro (⟨⟨l, hl, hne⟩, -⟩ | ⟨-, m, hm, hne⟩)
  · rw [heq] at hl
    exact hne (Option.some.inj hl).symm
  · rw [heq] at hm
    exact Option.noConfusion hm

def c1wSync : SyncCommentsOracle :=
  { view := .reqExn "boom", mainSrc := fun p ps => .reqExn "boom",
    subSrc := fun a r ps => .reqExn "boom" }

def c1wAsync : AsyncCommentsOracle :=
  { view := .failure "boom", mainSrc := fun p ps => .failure "boom",
    subSrc := fun a r pg ps => .failure "boom" }

def c1wVideoSearch : VideoSearchOracle :=
  { api := .reqExn "boom", page := .error "boom", parse := fun h k => .ok [] }

def c1wArtSearch : ArticleSearchOracle :=
  { playwrightAvailable := false, automation := .ok [] }

def c1wView : RequestOutcome ViewResp := .reqExn "boom"

def c1wVScript : VideoScriptOracle :=
  { page := .exn "boom", httpErrText := "500 Server Error: x", extract := fun h => {} }

def c1wDanmaku : DanmakuOracle :=
  { view := .reqExn "boom", fetch := fun c => .error "boom" }

def c1wArticle : ArticleOracle :=
  { page := .exn "boom", httpErrText := "500 Server Error: x", parse := fun h => {} }

/-- C1 witness: the amended invariant instantiated at a concrete client whose
every request fails with the message "boom". -/
theorem c1_witness :
    EnvelopeOk [] (get_comments (some "SESSDATA=x") true c1wSync c1wAsync
      "BV1234567890" 20 false 5)
    ∧ EnvelopeOk [] (search_videos c1wVideoSearch "cat" 10 "api")
    ∧ EnvelopeOk [] (search_articles c1wArtSearch "cat" 10)
    ∧ EnvelopeOk (none : Option VideoData) (get_video_info c1wView c1wVScript
        "BV1234567890" "api")
    ∧ EnvelopeOk (none : Option DanmakuOut) (get_danmaku c1wDanmaku "BV1234567890" none)
    ∧ EnvelopeOk (none : Option ArticleOut) (get_article c1wArticle "12345") :=
  c1_envelope_invariant (some "SESSDATA=x") true c1wSync c1wAsync c1wVideoSearch
    c1wArtSearch c1wView c1wVScript c1wDanmaku c1wArticle
    "BV1234567890" "12345" "cat" "api" 20 5 false none
    (by intro m hm; cases hm; decide)
    (by intro html k m hm; exact Except.noConfusion hm)
    (by intro m hm; cases hm; decide)
    (by decide)
    (by intro c m hm; cases hm; decide)
    (by intro m hm; cases hm; decide)
    (by decide)

/-- C2: on every input and against every platform behaviour, each of the six
public operations returns an `Envelope` (each is a total function — the
translated `try/except` layers catch every modelled exception, so no
unhandled fault reaches the caller) and the envelope is `{success: false,
error: <nonempty message>}` exactly when the operation failed, with no error
key on success.  Hypotheses as in the C1 theorem: library-injected raw
exception texts are nonempty. -/
theorem c2_errors_as_envelopes
    (cookies : Option String) (mode : Bool) (so : SyncCommentsOracle)
    (ao : AsyncCommentsOracle) (vo : VideoSearchOracle) (aso : ArticleSearchOracle)
    (viewO : RequestOutcome ViewResp) (vso : VideoScriptOracle) (dno : DanmakuOracle)
    (aro : ArticleOracle) (bvid cv keyword method : String) (topk rc : Nat)
    (ir : Bool) (cid : Option String)
    (hpage : ∀ m, vo.page = .error m → m ≠ "")
    (hparse : ∀ html k m, vo.parse html k = .error m → m ≠ "")
    (hvexn : ∀ m, vso.page = .exn m → m ≠ "")
    (hvhttp : vso.httpErrText ≠ "")
    (hdf : ∀ c m, dno.fetch c = .error m → m ≠ "")
    (haexn : ∀ m, aro.page = .exn m → m ≠ "")
    (hahttp : aro.httpErrText ≠ "") :
    WellFormedEnv (get_comments cookies mode so ao bvid topk ir rc)
    ∧ WellFormedEnv (search_videos vo keyword topk method)
    ∧ WellFormedEnv (search_articles aso keyword topk)
    ∧ WellFormedEnv (get_video_info viewO vso bvid method)
    ∧ WellFormedEnv (get_danmaku dno bvid cid)
    ∧ WellFormedEnv (get_article aro cv) :=
  ⟨(get_comments_envOk cookies mode so ao bvid topk ir rc).wf,
   (search_videos_envOk vo keyword topk method hpage hparse).wf,
   (search_articles_envOk aso keyword topk).wf,
   (get_video_info_envOk viewO vso bvid method hvexn hvhttp).wf,
   (get_danmaku_envOk dno bvid cid hdf).wf,
   (get_article_envOk aro cv haexn hahttp).wf⟩

/-- C2 witness: the envelope discipline at the same concrete all-failing
client, on the script methods this time. -/
theorem c2_witness :
    WellFormedEnv (get_comments none false c1wSync c1wAsync "BV1234567890" 20 true 5)
    ∧ WellFormedEnv (search_videos c1wVideoSearch "cat" 10 "script")
    ∧ WellFormedEnv (search_articles c1wArtSearch "cat" 10)
    ∧ WellFormedEnv (get_video_info c1wView c1wVScript "BV1234567890" "script")
    ∧ WellFormedEnv (get_danmaku c1wDanmaku "BV1234567890" (some "62131"))
    ∧ WellFormedEnv (get_article c1wArticle "not-a-cv") :=
  c2_errors_as_envelopes none false c1wSync c1wAsync c1wVideoSearch
    c1wArtSearch c1wView c1wVScript c1wDanmaku c1wArticle
    "BV1234567890" "not-a-cv" "cat" "script" 20 5 true (some "62131")
    (by intro m hm; cases hm; decide)
    (by intro html k m hm; exact Except.noConfusion hm)
    (by intro m hm; cases hm; decide)
    (by decide)
    (by intro c m hm; cases hm; decide)
    (by intro m hm; cases hm; decide)
    (by decide)

end Bilibili
